import Mathlib

/-!
Verification of a color conversion library (8-bit sRGB, CIE XYZ (D65), HSV,
hex strings) and of the synchronization controller that keeps the three views
of one color consistent.

The conversion library (`color_models.py`) is embedded shallowly:

* Python `int` values become `ℤ` (or `ℕ` for hex channel values);
* Python `float` values become `ℝ` with exact real arithmetic; `x ** y`
  becomes `Real.rpow`, `round(x)` becomes `pyround` (round half to even,
  Python 3 semantics), `x % y` on floats becomes `pymod` (sign of divisor),
  `int(x)` on floats becomes `pytrunc` (truncation toward zero);
* Python strings become `List Char`.

The `colorsys` standard library functions used by `color_models.py`
(`rgb_to_hsv`, `hsv_to_rgb`) are embedded from their CPython source.
The controller (`app.py`) is modelled as a state-transition function
`syncPass` over an explicit state record, mirroring the module-level
synchronization code that runs on every rerun.
-/

/- ### Python numeric primitives -/

/-- Python 3 `round(x)` (no digits argument): round half to even, result an
integer. -/
noncomputable def pyround (x : ℝ) : ℤ :=
  if Int.fract x = 1 / 2 then (if Even ⌊x⌋ then ⌊x⌋ else ⌊x⌋ + 1) else round x

/-- Python float modulo `x % y`: `x - y * floor (x / y)` (result carries the
sign of the divisor). -/
noncomputable def pymod (x y : ℝ) : ℝ := x - y * ⌊x / y⌋

/-- Python `int(x)` on a float: truncation toward zero. -/
noncomputable def pytrunc (x : ℝ) : ℤ := if 0 ≤ x then ⌊x⌋ else -⌊-x⌋

/-- Embedding of `_clamp` (`color_models.py`). -/
noncomputable def clamp (value min_value max_value : ℝ) : ℝ :=
  if value < min_value then min_value
  else if value > max_value then max_value
  else value

/- ### Lemmas about the numeric primitives -/

lemma pymod_eq_fract (x y : ℝ) (hy : y ≠ 0) :
    pymod x y = y * Int.fract (x / y) := by
  have hxy : y * (x / y) = x := by field_simp
  unfold pymod Int.fract
  rw [mul_sub, hxy]

lemma pymod_nonneg (x y : ℝ) (hy : 0 < y) : 0 ≤ pymod x y := by
  rw [pymod_eq_fract x y (ne_of_gt hy)]
  exact mul_nonneg hy.le (Int.fract_nonneg _)

lemma pymod_lt (x y : ℝ) (hy : 0 < y) : pymod x y < y := by
  rw [pymod_eq_fract x y (ne_of_gt hy)]
  calc y * Int.fract (x / y) < y * 1 :=
        mul_lt_mul_of_pos_left (Int.fract_lt_one _) hy
    _ = y := mul_one y

lemma pymod_eq_self {x y : ℝ} (h0 : 0 ≤ x) (h1 : x < y) : pymod x y = x := by
  have hy : 0 < y := lt_of_le_of_lt h0 h1
  have hfl : ⌊x / y⌋ = 0 := by
    rw [Int.floor_eq_zero_iff]
    exact ⟨div_nonneg h0 hy.le, (div_lt_one hy).mpr h1⟩
  unfold pymod
  rw [hfl]
  simp

lemma pymod_idem (x y : ℝ) (hy : 0 < y) :
    pymod (pymod x y) y = pymod x y :=
  pymod_eq_self (pymod_nonneg x y hy) (pymod_lt x y hy)

lemma abs_pyround_sub (x : ℝ) : |(pyround x : ℝ) - x| ≤ 1 / 2 := by
  unfold pyround
  split_ifs with h h2
  · have hx : x - ⌊x⌋ = 1 / 2 := by
      have := h
      unfold Int.fract at this
      linarith
    rw [abs_le]
    constructor <;> linarith
  · have hx : x - ⌊x⌋ = 1 / 2 := by
      have := h
      unfold Int.fract at this
      linarith
    rw [abs_le]
    constructor <;> push_cast <;> linarith
  · rw [abs_sub_comm]
    exact abs_sub_round x

lemma pyround_intCast (n : ℤ) : pyround (n : ℝ) = n := by
  unfold pyround
  rw [Int.fract_intCast]
  norm_num

lemma pyround_eq_of {x : ℝ} {n : ℤ} (h : |x - n| < 1 / 2) : pyround x = n := by
  have h2 := abs_pyround_sub x
  have h3 : |((pyround x - n : ℤ) : ℝ)| < 1 := by
    push_cast
    calc |(pyround x : ℝ) - n| = |((pyround x : ℝ) - x) + (x - n)| := by ring_nf
      _ ≤ |(pyround x : ℝ) - x| + |x - n| := abs_add _ _
      _ < 1 := by linarith
  have h4 : |pyround x - n| < 1 := by exact_mod_cast h3
  have h5 : pyround x - n = 0 := Int.abs_lt_one_iff.mp h4
  omega

lemma pyround_abs_le {x : ℝ} {n : ℤ} (h : |x - n| < 3 / 2) :
    |pyround x - n| ≤ 1 := by
  have h2 := abs_pyround_sub x
  have h3 : |((pyround x - n : ℤ) : ℝ)| < 2 := by
    push_cast
    calc |(pyround x : ℝ) - n| = |((pyround x : ℝ) - x) + (x - n)| := by ring_nf
      _ ≤ |(pyround x : ℝ) - x| + |x - n| := abs_add _ _
      _ < 2 := by linarith
  have h4 : |pyround x - n| < 2 := by exact_mod_cast h3
  omega

lemma pytrunc_of_floor {x : ℝ} {k : ℤ} (hk : 0 ≤ k) (h0 : (k : ℝ) ≤ x)
    (h1 : x < k + 1) : pytrunc x = k := by
  have hx : 0 ≤ x := le_trans (by exact_mod_cast hk) h0
  unfold pytrunc
  rw [if_pos hx]
  exact Int.floor_eq_iff.mpr ⟨h0, h1⟩

lemma clamp_eq_self {x lo hi : ℝ} (h0 : lo ≤ x) (h1 : x ≤ hi) :
    clamp x lo hi = x := by
  unfold clamp
  rw [if_neg (by linarith), if_neg (by simp; linarith)]

lemma clamp_mem {x lo hi : ℝ} (h : lo ≤ hi) :
    lo ≤ clamp x lo hi ∧ clamp x lo hi ≤ hi := by
  unfold clamp
  split_ifs with h1 h2
  · exact ⟨le_refl _, h⟩
  · exact ⟨h, le_refl _⟩
  · simp only [gt_iff_lt, not_lt] at h1 h2
    exact ⟨by linarith, h2⟩

lemma clamp_idem (x lo hi : ℝ) (h : lo ≤ hi) :
    clamp (clamp x lo hi) lo hi = clamp x lo hi :=
  clamp_eq_self (clamp_mem h).1 (clamp_mem h).2

lemma clamp_dist_le {u l : ℝ} (h0 : 0 ≤ l) (h1 : l ≤ 1) :
    |clamp u 0 1 - l| ≤ |u - l| := by
  unfold clamp
  split_ifs with hc1 hc2
  · rw [abs_sub_comm, abs_of_nonneg (by linarith), abs_sub_comm,
      abs_of_nonneg (by linarith)]
    linarith
  · simp only [gt_iff_lt] at hc2
    rw [abs_of_nonneg (by linarith), abs_of_nonneg (by linarith)]
    linarith
  · exact le_refl _

lemma const_mul_unit_mem {c x : ℝ} (h0 : 0 ≤ x) (h1 : x ≤ 1) :
    min c 0 ≤ c * x ∧ c * x ≤ max c 0 := by
  rcases le_total 0 c with hc | hc
  · refine ⟨le_trans (min_le_right _ _) (mul_nonneg hc h0), ?_⟩
    exact le_trans (mul_le_of_le_one_right hc h1) (le_max_left _ _)
  · constructor
    · have := mul_le_mul_of_nonpos_left h1 hc
      calc min c 0 ≤ c := min_le_left _ _
        _ = c * 1 := (mul_one c).symm
        _ ≤ c * x := this
    · have h2 : c * x ≤ 0 := by nlinarith
      exact le_trans h2 (le_max_right c 0)

/- ### Hex string encoding (`rgb_to_hex`, `hex_to_rgb`)

Python strings are modelled as `List Char`.  A raised `ValueError` is
modelled as `none`; a normal return value `v` as `some v`. -/

/-- ASCII whitespace stripped by Python `str.strip()` (the Unicode whitespace
characters cannot occur in the strings considered here). -/
def isPySpace (c : Char) : Bool :=
  c == ' ' || c == '\t' || c == '\n' || c == '\r' || c == '\x0b' || c == '\x0c'

/-- Python `str.strip()`. -/
def pyStrip (s : List Char) : List Char :=
  ((s.dropWhile isPySpace).reverse.dropWhile isPySpace).reverse

/-- Python `str.lstrip('#')`: remove every leading `'#'`. -/
def pyLstripHash (s : List Char) : List Char :=
  s.dropWhile (fun c => c == '#')

/-- Value of one hexadecimal digit, case insensitive (the digits accepted by
Python `int(s, 16)`). -/
def hexDigVal (c : Char) : Option ℕ :=
  if '0' ≤ c ∧ c ≤ '9' then some (c.toNat - 48)
  else if 'a' ≤ c ∧ c ≤ 'f' then some (c.toNat - 87)
  else if 'A' ≤ c ∧ c ≤ 'F' then some (c.toNat - 55)
  else none

/-- Python `int(s, 16)` restricted to the shapes reachable from
`hex_to_rgb`: a string of hexadecimal digits parses to its value, anything
else raises (`none`).  (Python additionally accepts an optional sign,
surrounding whitespace and grouping underscores; no such string can reach
the call sites modelled here, where the argument is a 2-character slice of
a stripped string.) -/
def pyIntHex (s : List Char) : Option ℕ :=
  if s.isEmpty then none
  else s.foldl (fun acc c => acc.bind fun a => (hexDigVal c).map fun d => 16 * a + d)
    (some 0)

/-- Uppercase hexadecimal digit for a value below 16, as produced by the
Python format specifier `X`. -/
def hexDigU (d : ℕ) : Char :=
  if d < 10 then Char.ofNat (48 + d) else Char.ofNat (55 + d)

/-- Python `f"{n:02X}"`: uppercase hexadecimal representation of `n`, left
padded with `'0'` to width 2. -/
def pyFormat02X (n : ℕ) : List Char :=
  let ds := (Nat.toDigits 16 n).map Char.toUpper
  List.replicate (2 - ds.length) '0' ++ ds

/-- Embedding of `rgb_to_hex` (`color_models.py`):
`f"#{r:02X}{g:02X}{b:02X}"`. -/
def rgb_to_hex (r g b : ℕ) : List Char :=
  '#' :: (pyFormat02X r ++ pyFormat02X g ++ pyFormat02X b)

/-- Embedding of `hex_to_rgb` (`color_models.py`): strip whitespace and
leading `'#'`; a string whose length is not 6 yields black `(0,0,0)`;
otherwise the three 2-character slices are parsed with `int(_, 16)`, which
raises (`none`) on non-hexadecimal characters. -/
def hex_to_rgb (s : List Char) : Option (ℕ × ℕ × ℕ) :=
  let hs := pyLstripHash (pyStrip s)
  if hs.length ≠ 6 then some (0, 0, 0)
  else
    match pyIntHex (hs.take 2), pyIntHex ((hs.drop 2).take 2),
        pyIntHex ((hs.drop 4).take 2) with
    | some r, some g, some b => some (r, g, b)
    | _, _, _ => none

/- Auxiliary facts about the hex digits. -/

set_option maxRecDepth 4000 in
lemma pyFormat02X_spec (n : ℕ) (hn : n < 256) :
    pyIntHex (pyFormat02X n) = some n ∧ (pyFormat02X n).length = 2 ∧
      ∀ c ∈ pyFormat02X n, isPySpace c = false ∧ c ≠ '#' := by
  revert n; decide

lemma hex_strip_aux (a1 a2 b1 b2 c1 c2 : Char)
    (h : ∀ c ∈ [a1, a2, b1, b2, c1, c2], isPySpace c = false ∧ c ≠ '#') :
    pyLstripHash (pyStrip ('#' :: [a1, a2, b1, b2, c1, c2])) =
      [a1, a2, b1, b2, c1, c2] := by
  have ha1 := h a1 (by simp)
  have ha2 := h a2 (by simp)
  have hb1 := h b1 (by simp)
  have hb2 := h b2 (by simp)
  have hc1 := h c1 (by simp)
  have hc2 := h c2 (by simp)
  have ha1h : (a1 == '#') = false := by
    simpa [beq_iff_eq] using ha1.2
  simp [pyStrip, pyLstripHash, List.dropWhile, ha1.1, ha2.1, hb1.1, hb2.1,
    hc1.1, hc2.1, ha1h]

/-- C5 (hex round-trip): for every RGB triple with channels in `[0,255]`,
`hex_to_rgb (rgb_to_hex r g b)` returns exactly `(r, g, b)`. -/
theorem C5_hex_roundtrip (r g b : ℕ) (hr : r ≤ 255) (hg : g ≤ 255) (hb : b ≤ 255) :
    hex_to_rgb (rgb_to_hex r g b) = some (r, g, b) := by
  obtain ⟨hrp, hrl, hrc⟩ := pyFormat02X_spec r (by omega)
  obtain ⟨hgp, hgl, hgc⟩ := pyFormat02X_spec g (by omega)
  obtain ⟨hbp, hbl, hbc⟩ := pyFormat02X_spec b (by omega)
  obtain ⟨a1, a2, ha⟩ := List.length_eq_two.mp hrl
  obtain ⟨b1, b2, hbq⟩ := List.length_eq_two.mp hgl
  obtain ⟨c1, c2, hc⟩ := List.length_eq_two.mp hbl
  have hmem : ∀ c ∈ [a1, a2, b1, b2, c1, c2], isPySpace c = false ∧ c ≠ '#' := by
    intro c hcmem
    simp only [List.mem_cons, List.not_mem_nil, or_false] at hcmem
    rcases hcmem with h | h | h | h | h | h
    · exact hrc c (by simp [ha, h])
    · exact hrc c (by simp [ha, h])
    · exact hgc c (by simp [hbq, h])
    · exact hgc c (by simp [hbq, h])
    · exact hbc c (by simp [hc, h])
    · exact hbc c (by simp [hc, h])
  have hstrip := hex_strip_aux a1 a2 b1 b2 c1 c2 hmem
  have hform : rgb_to_hex r g b = '#' :: [a1, a2, b1, b2, c1, c2] := by
    simp [rgb_to_hex, ha, hbq, hc]
  rw [hex_to_rgb, hform, hstrip]
  have h1 : pyIntHex [a1, a2] = some r := by rw [← ha]; exact hrp
  have h2 : pyIntHex [b1, b2] = some g := by rw [← hbq]; exact hgp
  have h3 : pyIntHex [c1, c2] = some b := by rw [← hc]; exact hbp
  simp [h1, h2, h3]

/-- C5 witness: the round-trip theorem applied at the concrete triple
`(255, 0, 171)`. -/
theorem C5_hex_roundtrip_witness :
    hex_to_rgb (rgb_to_hex 255 0 171) = some (255, 0, 171) :=
  C5_hex_roundtrip 255 0 171 (by decide) (by decide) (by decide)

/-- C2: `hex_to_rgb "zzzzzz"` does not return a value: the slice `"zz"`
reaches `int("zz", 16)`, which raises `ValueError` (modelled as `none`),
contradicting the specified never-fails behavior. -/
theorem C2_hex_to_rgb_raises_on_nonhex :
    hex_to_rgb ['z', 'z', 'z', 'z', 'z', 'z'] = none := by decide

/- ### The colorsys conversions used by `color_models.py`

Embedded from the CPython `colorsys` module source. -/

/-- Embedding of `colorsys.rgb_to_hsv` (CPython standard library). -/
noncomputable def rgb_to_hsv (r g b : ℝ) : ℝ × ℝ × ℝ :=
  let maxc := max r (max g b)
  let minc := min r (min g b)
  let rangec := maxc - minc
  let v := maxc
  if minc = maxc then (0, 0, v)
  else
    let s := rangec / maxc
    let rc := (maxc - r) / rangec
    let gc := (maxc - g) / rangec
    let bc := (maxc - b) / rangec
    let h := if r = maxc then bc - gc
      else if g = maxc then 2 + rc - bc
      else 4 + gc - rc
    (pymod (h / 6) 1, s, v)

/-- Embedding of `colorsys.hsv_to_rgb` (CPython standard library); `int()`
truncates, `i % 6` is Python integer modulo. -/
noncomputable def hsv_to_rgb (h s v : ℝ) : ℝ × ℝ × ℝ :=
  if s = 0 then (v, v, v)
  else
    let i0 : ℤ := pytrunc (h * 6)
    let f := h * 6 - i0
    let p := v * (1 - s)
    let q := v * (1 - s * f)
    let t := v * (1 - s * (1 - f))
    let i := i0 % 6
    if i = 0 then (v, t, p)
    else if i = 1 then (q, v, p)
    else if i = 2 then (p, v, t)
    else if i = 3 then (p, q, v)
    else if i = 4 then (t, p, v)
    else (v, p, q)

/-- Embedding of `rgb255_to_hsv_deg` (`color_models.py`). -/
noncomputable def rgb255_to_hsv_deg (r g b : ℝ) : ℝ × ℝ × ℝ :=
  let r_s := clamp r 0 255 / 255
  let g_s := clamp g 0 255 / 255
  let b_s := clamp b 0 255 / 255
  let hsv := rgb_to_hsv r_s g_s b_s
  (hsv.1 * 360, hsv.2.1 * 100, hsv.2.2 * 100)

/-- Embedding of `hsv_deg_to_rgb255` (`color_models.py`): hue reduced with
Python `%` by 360, saturation and value clamped to `[0,100]`, channels
rounded, with the final guard `max(0, min(255, _))`. -/
noncomputable def hsv_deg_to_rgb255 (h_deg s_perc v_perc : ℝ) : ℤ × ℤ × ℤ :=
  let h := pymod h_deg 360 / 360
  let s := clamp s_perc 0 100 / 100
  let v := clamp v_perc 0 100 / 100
  let rgb := hsv_to_rgb h s v
  (max 0 (min 255 (pyround (clamp rgb.1 0 1 * 255))),
   max 0 (min 255 (pyround (clamp rgb.2.1 0 1 * 255))),
   max 0 (min 255 (pyround (clamp rgb.2.2 0 1 * 255))))

/-- C6: `hsv_deg_to_rgb255` normalizes before converting: its result is
unchanged if the hue is first reduced mod 360 and saturation/value are first
clamped to `[0,100]`; in particular hue 360 coincides with hue 0. -/
theorem C6_hsv_input_normalization :
    ∀ h s v : ℝ,
      hsv_deg_to_rgb255 h s v =
        hsv_deg_to_rgb255 (pymod h 360) (clamp s 0 100) (clamp v 0 100) ∧
      hsv_deg_to_rgb255 360 s v = hsv_deg_to_rgb255 0 s v := by
  intro h s v
  have h360 : (0:ℝ) < 360 := by norm_num
  have hm360 : pymod (360:ℝ) 360 = 0 := by
    unfold pymod
    norm_num
  have hm0 : pymod (0:ℝ) 360 = 0 := by
    unfold pymod
    norm_num
  constructor
  · unfold hsv_deg_to_rgb255
    rw [pymod_idem h 360 h360, clamp_idem s 0 100 (by norm_num),
      clamp_idem v 0 100 (by norm_num)]
  · unfold hsv_deg_to_rgb255
    rw [hm360, hm0]

/- ### Exactness of the HSV round trip -/

lemma hsv_to_rgb_eval (hh s v : ℝ) (hs : s ≠ 0) (k : ℤ) (h0k : 0 ≤ k)
    (hk6 : k < 6) (hfloor : pytrunc (hh * 6) = k) :
    hsv_to_rgb hh s v =
      (if k = 0 then (v, v * (1 - s * (1 - (hh * 6 - k))), v * (1 - s))
       else if k = 1 then (v * (1 - s * (hh * 6 - k)), v, v * (1 - s))
       else if k = 2 then (v * (1 - s), v, v * (1 - s * (1 - (hh * 6 - k))))
       else if k = 3 then (v * (1 - s), v * (1 - s * (hh * 6 - k)), v)
       else if k = 4 then (v * (1 - s * (1 - (hh * 6 - k))), v * (1 - s), v)
       else (v, v * (1 - s), v * (1 - s * (hh * 6 - k)))) := by
  simp only [hsv_to_rgb, if_neg hs, hfloor]
  rw [Int.emod_eq_of_lt h0k hk6]

lemma rgb_to_hsv_h_mem (r g b : ℝ) :
    0 ≤ (rgb_to_hsv r g b).1 ∧ (rgb_to_hsv r g b).1 < 1 := by
  by_cases h : min r (min g b) = max r (max g b)
  · simp only [rgb_to_hsv, if_pos h]
    norm_num
  · simp only [rgb_to_hsv, if_neg h]
    exact ⟨pymod_nonneg _ _ one_pos, pymod_lt _ _ one_pos⟩

lemma rgb_to_hsv_s_mem (r g b : ℝ) (h0r : 0 ≤ r) (h0g : 0 ≤ g) (h0b : 0 ≤ b) :
    0 ≤ (rgb_to_hsv r g b).2.1 ∧ (rgb_to_hsv r g b).2.1 ≤ 1 := by
  by_cases h : min r (min g b) = max r (max g b)
  · simp only [rgb_to_hsv, if_pos h]
    norm_num
  · simp only [rgb_to_hsv, if_neg h]
    have h0m : 0 ≤ min r (min g b) := le_min h0r (le_min h0g h0b)
    have hmM : min r (min g b) ≤ max r (max g b) :=
      le_trans (min_le_left _ _) (le_max_left _ _)
    have hM0 : 0 < max r (max g b) :=
      lt_of_le_of_lt h0m (lt_of_le_of_ne hmM h)
    constructor
    · exact div_nonneg (by linarith) hM0.le
    · rw [div_le_one hM0]
      linarith

lemma rgb_to_hsv_v_mem (r g b : ℝ) (h0r : 0 ≤ r) (h1r : r ≤ 1) (h1g : g ≤ 1)
    (h1b : b ≤ 1) :
    0 ≤ (rgb_to_hsv r g b).2.2 ∧ (rgb_to_hsv r g b).2.2 ≤ 1 := by
  have hvM : 0 ≤ max r (max g b) := le_trans h0r (le_max_left _ _)
  have hv1 : max r (max g b) ≤ 1 := max_le h1r (max_le h1g h1b)
  by_cases h : min r (min g b) = max r (max g b) <;>
    simp only [rgb_to_hsv, if_pos, if_neg, h] <;> exact ⟨hvM, hv1⟩

lemma pymod_one_neg {x : ℝ} (h0 : -1 ≤ x) (h1 : x < 0) : pymod x 1 = x + 1 := by
  have hfl : ⌊x / 1⌋ = -1 := by
    rw [div_one]
    refine Int.floor_eq_iff.mpr ⟨by push_cast; linarith, by push_cast; linarith⟩
  unfold pymod
  rw [hfl]
  push_cast
  ring


theorem colorsys_roundtrip (r g b : ℝ)
    (h0r : 0 ≤ r) (h1r : r ≤ 1) (h0g : 0 ≤ g) (h1g : g ≤ 1)
    (h0b : 0 ≤ b) (h1b : b ≤ 1) :
    hsv_to_rgb (rgb_to_hsv r g b).1 (rgb_to_hsv r g b).2.1
      (rgb_to_hsv r g b).2.2 = (r, g, b) := by
  obtain ⟨M, hMdef⟩ : ∃ y, max r (max g b) = y := ⟨_, rfl⟩
  obtain ⟨m, hmdef⟩ : ∃ y, min r (min g b) = y := ⟨_, rfl⟩
  have hgle : g ≤ M := by
    rw [← hMdef]
    exact le_trans (le_max_left _ _) (le_max_right _ _)
  have hble : b ≤ M := by
    rw [← hMdef]
    exact le_trans (le_max_right _ _) (le_max_right _ _)
  have hrle : r ≤ M := by rw [← hMdef]; exact le_max_left _ _
  have hmr : m ≤ r := by rw [← hmdef]; exact min_le_left _ _
  have hmg : m ≤ g := by
    rw [← hmdef]
    exact le_trans (min_le_right _ _) (min_le_left _ _)
  have hmb : m ≤ b := by
    rw [← hmdef]
    exact le_trans (min_le_right _ _) (min_le_right _ _)
  by_cases hmm : m = M
  · have hrM : r = M := le_antisymm hrle (by rw [← hmm]; exact hmr)
    have hgM : g = M := le_antisymm hgle (by rw [← hmm]; exact hmg)
    have hbM : b = M := le_antisymm hble (by rw [← hmm]; exact hmb)
    have hEq : rgb_to_hsv r g b = (0, 0, M) := by
      simp only [rgb_to_hsv]
      rw [hMdef, hmdef, if_pos hmm]
    rw [hEq]
    dsimp only
    have h2 : hsv_to_rgb 0 0 M = (M, M, M) := by
      simp [hsv_to_rgb]
    rw [h2]
    simp only [Prod.mk.injEq]
    exact ⟨hrM.symm, hgM.symm, hbM.symm⟩
  · have h0m : 0 ≤ m := by
      rw [← hmdef]
      exact le_min h0r (le_min h0g h0b)
    have hmleM : m ≤ M := le_trans hmr hrle
    have hmM : m < M := lt_of_le_of_ne hmleM hmm
    have hM0 : 0 < M := lt_of_le_of_lt h0m hmM
    have hMne : M ≠ 0 := ne_of_gt hM0
    have hdpos : 0 < M - m := by linarith
    have hdne : M - m ≠ 0 := ne_of_gt hdpos
    have hsne : (M - m) / M ≠ 0 := div_ne_zero hdne hMne
    by_cases hr : r = M
    · -- red is the maximal channel
      have hEq : rgb_to_hsv r g b =
          (pymod ((g - b) / (M - m) / 6) 1, (M - m) / M, M) := by
        simp only [rgb_to_hsv]
        rw [hMdef, hmdef, if_neg hmm, if_pos hr]
        rw [show (M - b) / (M - m) - (M - g) / (M - m) =
            (g - b) / (M - m) from by ring]
      rw [hEq]
      dsimp only
      by_cases hgb : b ≤ g
      · -- minimum is b
        have hgr : g ≤ r := by rw [hr]; exact hgle
        have hbr : b ≤ r := le_trans hgb hgr
        have hminb : m = b := by
          rw [← hmdef, min_eq_right hgb, min_eq_right hbr]
        rw [hminb]
        rw [hminb] at hdpos hdne hsne
        have hHnn : 0 ≤ (g - b) / (M - b) :=
          div_nonneg (by linarith) (by linarith)
        have hHle : (g - b) / (M - b) ≤ 1 := by
          rw [div_le_one hdpos]
          linarith
        have hmod : pymod ((g - b) / (M - b) / 6) 1 = (g - b) / (M - b) / 6 :=
          pymod_eq_self (by positivity) (by linarith)
        rw [hmod]
        have h6 : (g - b) / (M - b) / 6 * 6 = (g - b) / (M - b) := by ring
        rcases eq_or_lt_of_le hHle with hone | hlt
        · -- hue lands exactly on 1/6 of the circle: g = M as well
          have hgM : g - b = M - b := (div_eq_one_iff_eq hdne).mp hone
          have htr : pytrunc ((g - b) / (M - b) / 6 * 6) = 1 := by
            rw [h6, hone]
            exact pytrunc_of_floor (by norm_num) (by norm_num) (by norm_num)
          rw [hsv_to_rgb_eval _ _ _ hsne 1 (by norm_num) (by norm_num) htr]
          rw [if_neg (by norm_num : ¬(1 : ℤ) = 0), if_pos rfl]
          rw [h6, hone]
          simp only [Prod.mk.injEq]
          push_cast
          refine ⟨?_, by linarith, ?_⟩
          · rw [show (1 : ℝ) - 1 = 0 from by norm_num]
            rw [mul_zero, sub_zero, mul_one]
            exact hr.symm
          · field_simp
        · -- interior of the first sextant
          have htr : pytrunc ((g - b) / (M - b) / 6 * 6) = 0 := by
            rw [h6]
            exact pytrunc_of_floor (by norm_num) (by push_cast; linarith)
              (by push_cast; linarith)
          rw [hsv_to_rgb_eval _ _ _ hsne 0 (by norm_num) (by norm_num) htr]
          rw [if_pos rfl]
          rw [h6]
          simp only [Prod.mk.injEq]
          push_cast
          refine ⟨hr.symm, ?_, ?_⟩
          · field_simp
            ring
          · field_simp
      · -- minimum is g
        push_neg at hgb
        have hgr : g ≤ r := by rw [hr]; exact hgle
        have hminb : m = g := by
          rw [← hmdef, min_eq_left hgb.le, min_eq_right hgr]
        rw [hminb]
        rw [hminb] at hdpos hdne hsne
        have hHneg : (g - b) / (M - g) < 0 :=
          div_neg_of_neg_of_pos (by linarith) hdpos
        have hHge : (-1 : ℝ) ≤ (g - b) / (M - g) := by
          rw [le_div_iff hdpos]
          linarith
        have hmod : pymod ((g - b) / (M - g) / 6) 1 =
            (g - b) / (M - g) / 6 + 1 :=
          pymod_one_neg (by linarith) (by linarith)
        rw [hmod]
        have h6 : ((g - b) / (M - g) / 6 + 1) * 6 = (g - b) / (M - g) + 6 := by
          ring
        have htr : pytrunc (((g - b) / (M - g) / 6 + 1) * 6) = 5 := by
          rw [h6]
          exact pytrunc_of_floor (by norm_num) (by push_cast; linarith)
            (by push_cast; linarith)
        rw [hsv_to_rgb_eval _ _ _ hsne 5 (by norm_num) (by norm_num) htr]
        rw [if_neg (by norm_num : ¬(5 : ℤ) = 0), if_neg (by norm_num : ¬(5 : ℤ) = 1),
          if_neg (by norm_num : ¬(5 : ℤ) = 2), if_neg (by norm_num : ¬(5 : ℤ) = 3),
          if_neg (by norm_num : ¬(5 : ℤ) = 4)]
        rw [h6]
        simp only [Prod.mk.injEq]
        push_cast
        refine ⟨hr.symm, ?_, ?_⟩
        · field_simp
        · field_simp
          ring
    · by_cases hg : g = M
      · -- green is the maximal channel (red is not)
        have hEq : rgb_to_hsv r g b =
            (pymod ((2 + (b - r) / (M - m)) / 6) 1, (M - m) / M, M) := by
          simp only [rgb_to_hsv]
          rw [hMdef, hmdef, if_neg hmm, if_neg hr, if_pos hg]
          rw [show 2 + (M - r) / (M - m) - (M - b) / (M - m) =
              2 + (b - r) / (M - m) from by ring]
        rw [hEq]
        dsimp only
        have hrM : r < M := lt_of_le_of_ne hrle hr
        have hbg : b ≤ g := by rw [hg]; exact hble
        by_cases hbr : b ≤ r
        · -- minimum is b
          have hminb : m = b := by
            rw [← hmdef, min_eq_right hbg, min_eq_right hbr]
          rw [hminb]
          rw [hminb] at hdpos hdne hsne
          have hxle : (b - r) / (M - b) ≤ 0 :=
            div_nonpos_of_nonpos_of_nonneg (by linarith) (by linarith)
          have hxgt : (-1 : ℝ) < (b - r) / (M - b) := by
            rw [lt_div_iff hdpos]
            linarith
          have hmod : pymod ((2 + (b - r) / (M - b)) / 6) 1 =
              (2 + (b - r) / (M - b)) / 6 :=
            pymod_eq_self (by linarith) (by linarith)
          rw [hmod]
          have h6 : (2 + (b - r) / (M - b)) / 6 * 6 =
              2 + (b - r) / (M - b) := by ring
          rcases eq_or_lt_of_le hxle with hzero | hlt
          · -- b = r, hue exactly 1/3 of the circle
            have hbr2 : b = r := by
              rcases div_eq_zero_iff.mp hzero with h2 | h2
              · linarith
              · exact absurd h2 hdne
            have htr : pytrunc ((2 + (b - r) / (M - b)) / 6 * 6) = 2 := by
              rw [h6, hzero]
              norm_num
              exact pytrunc_of_floor (by norm_num) (by norm_num) (by norm_num)
            rw [hsv_to_rgb_eval _ _ _ hsne 2 (by norm_num) (by norm_num) htr]
            rw [if_neg (by norm_num : ¬(2 : ℤ) = 0),
              if_neg (by norm_num : ¬(2 : ℤ) = 1), if_pos rfl]
            rw [h6, hzero]
            simp only [Prod.mk.injEq]
            push_cast
            refine ⟨?_, hg.symm, ?_⟩
            · field_simp
              linarith
            · field_simp
          · have htr : pytrunc ((2 + (b - r) / (M - b)) / 6 * 6) = 1 := by
              rw [h6]
              exact pytrunc_of_floor (by norm_num) (by push_cast; linarith)
                (by push_cast; linarith)
            rw [hsv_to_rgb_eval _ _ _ hsne 1 (by norm_num) (by norm_num) htr]
            rw [if_neg (by norm_num : ¬(1 : ℤ) = 0), if_pos rfl]
            rw [h6]
            simp only [Prod.mk.injEq]
            push_cast
            refine ⟨?_, hg.symm, ?_⟩
            · field_simp
              ring
            · field_simp
        · -- minimum is r
          push_neg at hbr
          have hminb : m = r := by
            rw [← hmdef, min_eq_right hbg, min_eq_left hbr.le]
          rw [hminb]
          rw [hminb] at hdpos hdne hsne
          have hxpos : 0 < (b - r) / (M - r) := div_pos (by linarith) hdpos
          have hxle : (b - r) / (M - r) ≤ 1 := by
            rw [div_le_one hdpos]
            linarith
          have hmod : pymod ((2 + (b - r) / (M - r)) / 6) 1 =
              (2 + (b - r) / (M - r)) / 6 :=
            pymod_eq_self (by linarith) (by linarith)
          rw [hmod]
          have h6 : (2 + (b - r) / (M - r)) / 6 * 6 =
              2 + (b - r) / (M - r) := by ring
          rcases eq_or_lt_of_le hxle with hone | hlt
          · -- b = M as well, hue exactly half of the circle
            have hbM2 : b - r = M - r := (div_eq_one_iff_eq hdne).mp hone
            have htr : pytrunc ((2 + (b - r) / (M - r)) / 6 * 6) = 3 := by
              rw [h6, hone]
              norm_num
              exact pytrunc_of_floor (by norm_num) (by norm_num) (by norm_num)
            rw [hsv_to_rgb_eval _ _ _ hsne 3 (by norm_num) (by norm_num) htr]
            rw [if_neg (by norm_num : ¬(3 : ℤ) = 0),
              if_neg (by norm_num : ¬(3 : ℤ) = 1),
              if_neg (by norm_num : ¬(3 : ℤ) = 2), if_pos rfl]
            rw [h6, hone]
            simp only [Prod.mk.injEq]
            push_cast
            refine ⟨?_, ?_, by linarith⟩
            · field_simp
            · rw [show (2 : ℝ) + 1 - 3 = 0 from by norm_num]
              rw [mul_zero, sub_zero, mul_one]
              exact hg.symm
          · have htr : pytrunc ((2 + (b - r) / (M - r)) / 6 * 6) = 2 := by
              rw [h6]
              exact pytrunc_of_floor (by norm_num) (by push_cast; linarith)
                (by push_cast; linarith)
            rw [hsv_to_rgb_eval _ _ _ hsne 2 (by norm_num) (by norm_num) htr]
            rw [if_neg (by norm_num : ¬(2 : ℤ) = 0),
              if_neg (by norm_num : ¬(2 : ℤ) = 1), if_pos rfl]
            rw [h6]
            simp only [Prod.mk.injEq]
            push_cast
            refine ⟨?_, hg.symm, ?_⟩
            · field_simp
            · field_simp
              ring
      · -- blue is the maximal channel (red and green are not)
        have hbM : b = M := by
          have h2 : M ≤ r ∨ M ≤ g ∨ M ≤ b := by
            rw [← hMdef]
            rcases le_total r (max g b) with h | h
            · rcases le_total g b with h3 | h3
              · right; right
                exact le_of_eq (by rw [max_eq_right h, max_eq_right h3])
              · right; left
                exact le_of_eq (by rw [max_eq_right h, max_eq_left h3])
            · left
              exact le_of_eq (by rw [max_eq_left h])
          rcases h2 with h | h | h
          · exact absurd (le_antisymm hrle h) hr
          · exact absurd (le_antisymm hgle h) hg
          · exact le_antisymm hble h
        have hEq : rgb_to_hsv r g b =
            (pymod ((4 + (r - g) / (M - m)) / 6) 1, (M - m) / M, M) := by
          simp only [rgb_to_hsv]
          rw [hMdef, hmdef, if_neg hmm, if_neg hr, if_neg hg]
          rw [show 4 + (M - g) / (M - m) - (M - r) / (M - m) =
              4 + (r - g) / (M - m) from by ring]
        rw [hEq]
        dsimp only
        have hrM : r < M := lt_of_le_of_ne hrle hr
        have hgM : g < M := lt_of_le_of_ne hgle hg
        have hgb : g ≤ b := by rw [hbM]; exact hgM.le
        by_cases hrg : r ≤ g
        · -- minimum is r
          have hminb : m = r := by
            rw [← hmdef, min_eq_left hgb, min_eq_left hrg]
          rw [hminb]
          rw [hminb] at hdpos hdne hsne
          have hxle : (r - g) / (M - r) ≤ 0 :=
            div_nonpos_of_nonpos_of_nonneg (by linarith) (by linarith)
          have hxgt : (-1 : ℝ) < (r - g) / (M - r) := by
            rw [lt_div_iff hdpos]
            linarith
          have hmod : pymod ((4 + (r - g) / (M - r)) / 6) 1 =
              (4 + (r - g) / (M - r)) / 6 :=
            pymod_eq_self (by linarith) (by linarith)
          rw [hmod]
          have h6 : (4 + (r - g) / (M - r)) / 6 * 6 =
              4 + (r - g) / (M - r) := by ring
          rcases eq_or_lt_of_le hxle with hzero | hlt
          · -- r = g, hue exactly 2/3 of the circle
            have hrg2 : r = g := by
              rcases div_eq_zero_iff.mp hzero with h2 | h2
              · linarith
              · exact absurd h2 hdne
            have htr : pytrunc ((4 + (r - g) / (M - r)) / 6 * 6) = 4 := by
              rw [h6, hzero]
              norm_num
              exact pytrunc_of_floor (by norm_num) (by norm_num) (by norm_num)
            rw [hsv_to_rgb_eval _ _ _ hsne 4 (by norm_num) (by norm_num) htr]
            rw [if_neg (by norm_num : ¬(4 : ℤ) = 0),
              if_neg (by norm_num : ¬(4 : ℤ) = 1),
              if_neg (by norm_num : ¬(4 : ℤ) = 2),
              if_neg (by norm_num : ¬(4 : ℤ) = 3), if_pos rfl]
            rw [h6, hzero]
            simp only [Prod.mk.injEq]
            push_cast
            refine ⟨?_, ?_, hbM.symm⟩
            · field_simp
            · field_simp
              linarith
          · have htr : pytrunc ((4 + (r - g) / (M - r)) / 6 * 6) = 3 := by
              rw [h6]
              exact pytrunc_of_floor (by norm_num) (by push_cast; linarith)
                (by push_cast; linarith)
            rw [hsv_to_rgb_eval _ _ _ hsne 3 (by norm_num) (by norm_num) htr]
            rw [if_neg (by norm_num : ¬(3 : ℤ) = 0),
              if_neg (by norm_num : ¬(3 : ℤ) = 1),
              if_neg (by norm_num : ¬(3 : ℤ) = 2), if_pos rfl]
            rw [h6]
            simp only [Prod.mk.injEq]
            push_cast
            refine ⟨?_, ?_, hbM.symm⟩
            · field_simp
            · field_simp
              ring
        · -- minimum is g
          push_neg at hrg
          have hminb : m = g := by
            rw [← hmdef, min_eq_left hgb, min_eq_right hrg.le]
          rw [hminb]
          rw [hminb] at hdpos hdne hsne
          have hxpos : 0 < (r - g) / (M - g) := div_pos (by linarith) hdpos
          have hxlt : (r - g) / (M - g) < 1 := by
            rw [div_lt_one hdpos]
            linarith
          have hmod : pymod ((4 + (r - g) / (M - g)) / 6) 1 =
              (4 + (r - g) / (M - g)) / 6 :=
            pymod_eq_self (by linarith) (by linarith)
          rw [hmod]
          have h6 : (4 + (r - g) / (M - g)) / 6 * 6 =
              4 + (r - g) / (M - g) := by ring
          have htr : pytrunc ((4 + (r - g) / (M - g)) / 6 * 6) = 4 := by
            rw [h6]
            exact pytrunc_of_floor (by norm_num) (by push_cast; linarith)
              (by push_cast; linarith)
          rw [hsv_to_rgb_eval _ _ _ hsne 4 (by norm_num) (by norm_num) htr]
          rw [if_neg (by norm_num : ¬(4 : ℤ) = 0),
            if_neg (by norm_num : ¬(4 : ℤ) = 1),
            if_neg (by norm_num : ¬(4 : ℤ) = 2),
            if_neg (by norm_num : ¬(4 : ℤ) = 3), if_pos rfl]
          rw [h6]
          simp only [Prod.mk.injEq]
          push_cast
          refine ⟨?_, ?_, hbM.symm⟩
          · field_simp
            ring
          · field_simp

lemma hsv_roundtrip_exact (r g b : ℤ) (h0r : 0 ≤ r) (h1r : r ≤ 255)
    (h0g : 0 ≤ g) (h1g : g ≤ 255) (h0b : 0 ≤ b) (h1b : b ≤ 255) :
    hsv_deg_to_rgb255 (rgb255_to_hsv_deg (r : ℝ) (g : ℝ) (b : ℝ)).1
      (rgb255_to_hsv_deg (r : ℝ) (g : ℝ) (b : ℝ)).2.1
      (rgb255_to_hsv_deg (r : ℝ) (g : ℝ) (b : ℝ)).2.2 = (r, g, b) := by
  have h0r' : (0 : ℝ) ≤ (r : ℝ) := by exact_mod_cast h0r
  have h1r' : (r : ℝ) ≤ 255 := by exact_mod_cast h1r
  have h0g' : (0 : ℝ) ≤ (g : ℝ) := by exact_mod_cast h0g
  have h1g' : (g : ℝ) ≤ 255 := by exact_mod_cast h1g
  have h0b' : (0 : ℝ) ≤ (b : ℝ) := by exact_mod_cast h0b
  have h1b' : (b : ℝ) ≤ 255 := by exact_mod_cast h1b
  have hcr : clamp (r : ℝ) 0 255 = (r : ℝ) := clamp_eq_self h0r' h1r'
  have hcg : clamp (g : ℝ) 0 255 = (g : ℝ) := clamp_eq_self h0g' h1g'
  have hcb : clamp (b : ℝ) 0 255 = (b : ℝ) := clamp_eq_self h0b' h1b'
  have hEq1 : rgb255_to_hsv_deg (r : ℝ) (g : ℝ) (b : ℝ) =
      ((rgb_to_hsv ((r : ℝ) / 255) ((g : ℝ) / 255) ((b : ℝ) / 255)).1 * 360,
       (rgb_to_hsv ((r : ℝ) / 255) ((g : ℝ) / 255) ((b : ℝ) / 255)).2.1 * 100,
       (rgb_to_hsv ((r : ℝ) / 255) ((g : ℝ) / 255) ((b : ℝ) / 255)).2.2 * 100) := by
    simp only [rgb255_to_hsv_deg, hcr, hcg, hcb]
  have hx0 : (0 : ℝ) ≤ (r : ℝ) / 255 := by positivity
  have hx1 : (r : ℝ) / 255 ≤ 1 := by rw [div_le_one (by norm_num)]; linarith
  have hy0 : (0 : ℝ) ≤ (g : ℝ) / 255 := by positivity
  have hy1 : (g : ℝ) / 255 ≤ 1 := by rw [div_le_one (by norm_num)]; linarith
  have hz0 : (0 : ℝ) ≤ (b : ℝ) / 255 := by positivity
  have hz1 : (b : ℝ) / 255 ≤ 1 := by rw [div_le_one (by norm_num)]; linarith
  obtain ⟨hH0, hH1⟩ := rgb_to_hsv_h_mem ((r : ℝ) / 255) ((g : ℝ) / 255) ((b : ℝ) / 255)
  obtain ⟨hS0, hS1⟩ :=
    rgb_to_hsv_s_mem ((r : ℝ) / 255) ((g : ℝ) / 255) ((b : ℝ) / 255) hx0 hy0 hz0
  obtain ⟨hV0, hV1⟩ :=
    rgb_to_hsv_v_mem ((r : ℝ) / 255) ((g : ℝ) / 255) ((b : ℝ) / 255) hx0 hx1 hy1 hz1
  rw [hEq1]
  dsimp only
  have hm : pymod
      ((rgb_to_hsv ((r : ℝ) / 255) ((g : ℝ) / 255) ((b : ℝ) / 255)).1 * 360) 360 =
      (rgb_to_hsv ((r : ℝ) / 255) ((g : ℝ) / 255) ((b : ℝ) / 255)).1 * 360 :=
    pymod_eq_self (by nlinarith) (by nlinarith)
  have hs : clamp
      ((rgb_to_hsv ((r : ℝ) / 255) ((g : ℝ) / 255) ((b : ℝ) / 255)).2.1 * 100) 0 100 =
      (rgb_to_hsv ((r : ℝ) / 255) ((g : ℝ) / 255) ((b : ℝ) / 255)).2.1 * 100 :=
    clamp_eq_self (by nlinarith) (by nlinarith)
  have hv : clamp
      ((rgb_to_hsv ((r : ℝ) / 255) ((g : ℝ) / 255) ((b : ℝ) / 255)).2.2 * 100) 0 100 =
      (rgb_to_hsv ((r : ℝ) / 255) ((g : ℝ) / 255) ((b : ℝ) / 255)).2.2 * 100 :=
    clamp_eq_self (by nlinarith) (by nlinarith)
  simp only [hsv_deg_to_rgb255, hm, hs, hv]
  rw [show (rgb_to_hsv ((r : ℝ) / 255) ((g : ℝ) / 255) ((b : ℝ) / 255)).1 * 360 / 360 =
      (rgb_to_hsv ((r : ℝ) / 255) ((g : ℝ) / 255) ((b : ℝ) / 255)).1 from by ring,
    show (rgb_to_hsv ((r : ℝ) / 255) ((g : ℝ) / 255) ((b : ℝ) / 255)).2.1 * 100 / 100 =
      (rgb_to_hsv ((r : ℝ) / 255) ((g : ℝ) / 255) ((b : ℝ) / 255)).2.1 from by ring,
    show (rgb_to_hsv ((r : ℝ) / 255) ((g : ℝ) / 255) ((b : ℝ) / 255)).2.2 * 100 / 100 =
      (rgb_to_hsv ((r : ℝ) / 255) ((g : ℝ) / 255) ((b : ℝ) / 255)).2.2 from by ring]
  rw [colorsys_roundtrip ((r : ℝ) / 255) ((g : ℝ) / 255) ((b : ℝ) / 255)
    hx0 hx1 hy0 hy1 hz0 hz1]
  dsimp only
  rw [clamp_eq_self hx0 hx1, clamp_eq_self hy0 hy1, clamp_eq_self hz0 hz1]
  rw [show (r : ℝ) / 255 * 255 = (r : ℝ) from by ring,
    show (g : ℝ) / 255 * 255 = (g : ℝ) from by ring,
    show (b : ℝ) / 255 * 255 = (b : ℝ) from by ring]
  rw [pyround_intCast, pyround_intCast, pyround_intCast]
  rw [min_eq_right h1r, min_eq_right h1g, min_eq_right h1b,
    max_eq_right h0r, max_eq_right h0g, max_eq_right h0b]

/-- C4 (HSV round-trip): for every RGB triple with integer channels in
`[0,255]`, converting to HSV degrees/percent and back yields channels within
1 of the input (in exact arithmetic the round trip is exact). -/
theorem C4_hsv_roundtrip (r g b : ℤ) (h0r : 0 ≤ r) (h1r : r ≤ 255)
    (h0g : 0 ≤ g) (h1g : g ≤ 255) (h0b : 0 ≤ b) (h1b : b ≤ 255) :
    |(hsv_deg_to_rgb255 (rgb255_to_hsv_deg (r : ℝ) (g : ℝ) (b : ℝ)).1
        (rgb255_to_hsv_deg (r : ℝ) (g : ℝ) (b : ℝ)).2.1
        (rgb255_to_hsv_deg (r : ℝ) (g : ℝ) (b : ℝ)).2.2).1 - r| ≤ 1 ∧
      |(hsv_deg_to_rgb255 (rgb255_to_hsv_deg (r : ℝ) (g : ℝ) (b : ℝ)).1
        (rgb255_to_hsv_deg (r : ℝ) (g : ℝ) (b : ℝ)).2.1
        (rgb255_to_hsv_deg (r : ℝ) (g : ℝ) (b : ℝ)).2.2).2.1 - g| ≤ 1 ∧
      |(hsv_deg_to_rgb255 (rgb255_to_hsv_deg (r : ℝ) (g : ℝ) (b : ℝ)).1
        (rgb255_to_hsv_deg (r : ℝ) (g : ℝ) (b : ℝ)).2.1
        (rgb255_to_hsv_deg (r : ℝ) (g : ℝ) (b : ℝ)).2.2).2.2 - b| ≤ 1 := by
  rw [hsv_roundtrip_exact r g b h0r h1r h0g h1g h0b h1b]
  dsimp only
  norm_num

/-- C4 witness: the round-trip theorem applied at the concrete triple
`(200, 3, 255)`. -/
theorem C4_hsv_roundtrip_witness :
    |(hsv_deg_to_rgb255 (rgb255_to_hsv_deg ((200 : ℤ) : ℝ) ((3 : ℤ) : ℝ) ((255 : ℤ) : ℝ)).1
        (rgb255_to_hsv_deg ((200 : ℤ) : ℝ) ((3 : ℤ) : ℝ) ((255 : ℤ) : ℝ)).2.1
        (rgb255_to_hsv_deg ((200 : ℤ) : ℝ) ((3 : ℤ) : ℝ) ((255 : ℤ) : ℝ)).2.2).1 - 200| ≤ 1 ∧
      |(hsv_deg_to_rgb255 (rgb255_to_hsv_deg ((200 : ℤ) : ℝ) ((3 : ℤ) : ℝ) ((255 : ℤ) : ℝ)).1
        (rgb255_to_hsv_deg ((200 : ℤ) : ℝ) ((3 : ℤ) : ℝ) ((255 : ℤ) : ℝ)).2.1
        (rgb255_to_hsv_deg ((200 : ℤ) : ℝ) ((3 : ℤ) : ℝ) ((255 : ℤ) : ℝ)).2.2).2.1 - 3| ≤ 1 ∧
      |(hsv_deg_to_rgb255 (rgb255_to_hsv_deg ((200 : ℤ) : ℝ) ((3 : ℤ) : ℝ) ((255 : ℤ) : ℝ)).1
        (rgb255_to_hsv_deg ((200 : ℤ) : ℝ) ((3 : ℤ) : ℝ) ((255 : ℤ) : ℝ)).2.1
        (rgb255_to_hsv_deg ((200 : ℤ) : ℝ) ((3 : ℤ) : ℝ) ((255 : ℤ) : ℝ)).2.2).2.2 - 255| ≤ 1 :=
  C4_hsv_roundtrip 200 3 255 (by decide) (by decide) (by decide) (by decide)
    (by decide) (by decide)

/- ### The sRGB transfer functions and XYZ matrices (`color_models.py`) -/

/-- Embedding of `_srgb_to_linear`: `c / 12.92` below the 0.04045 knee, else
`((c + 0.055) / 1.055) ** 2.4` (`Real.rpow`). -/
noncomputable def srgb_to_linear (c : ℝ) : ℝ :=
  if c ≤ 0.04045 then c / 12.92 else ((c + 0.055) / 1.055) ^ (2.4 : ℝ)

/-- Embedding of `_linear_to_srgb`: `12.92 * c` below the 0.0031308 knee,
else `1.055 * c ** (1.0 / 2.4) - 0.055`. -/
noncomputable def linear_to_srgb (c : ℝ) : ℝ :=
  if c ≤ 0.0031308 then 12.92 * c else 1.055 * c ^ ((1 : ℝ) / 2.4) - 0.055

/-- Embedding of `_SRGB_TO_XYZ` (IEC 61966-2-1 constants), rows as nested
pairs. -/
noncomputable def SRGB_TO_XYZ : (ℝ × ℝ × ℝ) × (ℝ × ℝ × ℝ) × (ℝ × ℝ × ℝ) :=
  ((0.4124564, 0.3575761, 0.1804375),
   (0.2126729, 0.7151522, 0.0721750),
   (0.0193339, 0.1191920, 0.9503041))

/-- Embedding of `_XYZ_TO_SRGB` (IEC 61966-2-1 constants). -/
noncomputable def XYZ_TO_SRGB : (ℝ × ℝ × ℝ) × (ℝ × ℝ × ℝ) × (ℝ × ℝ × ℝ) :=
  ((3.2404542, -1.5371385, -0.4985314),
   (-0.9692660, 1.8760108, 0.0415560),
   (0.0556434, -0.2040259, 1.0572252))

/-- Embedding of `_dot3`: matrix-vector product, row by row. -/
noncomputable def dot3 (m : (ℝ × ℝ × ℝ) × (ℝ × ℝ × ℝ) × (ℝ × ℝ × ℝ))
    (v : ℝ × ℝ × ℝ) : ℝ × ℝ × ℝ :=
  (m.1.1 * v.1 + m.1.2.1 * v.2.1 + m.1.2.2 * v.2.2,
   m.2.1.1 * v.1 + m.2.1.2.1 * v.2.1 + m.2.1.2.2 * v.2.2,
   m.2.2.1 * v.1 + m.2.2.2.1 * v.2.1 + m.2.2.2.2 * v.2.2)

/-- Embedding of `rgb255_to_xyz100`. -/
noncomputable def rgb255_to_xyz100 (r g b : ℝ) : ℝ × ℝ × ℝ :=
  let r_s := clamp r 0 255 / 255
  let g_s := clamp g 0 255 / 255
  let b_s := clamp b 0 255 / 255
  let xyz := dot3 SRGB_TO_XYZ (srgb_to_linear r_s, srgb_to_linear g_s, srgb_to_linear b_s)
  (xyz.1 * 100, xyz.2.1 * 100, xyz.2.2 * 100)

/-- The per-channel tail of `xyz100_to_rgb255`: clamp the linear value,
re-apply gamma, clamp, scale to 255, round, and guard into `[0,255]` — the
source applies exactly this expression to each of the three channels. -/
noncomputable def chan8 (c : ℝ) : ℤ :=
  max 0 (min 255 (pyround (clamp (linear_to_srgb (clamp c 0 1)) 0 1 * 255)))

/-- Embedding of `xyz100_to_rgb255`: unscale, apply the inverse matrix, set
the `clipped` flag iff some linear component leaves `[0,1]` before clamping,
then convert each channel with `chan8`. -/
noncomputable def xyz100_to_rgb255 (X Y Z : ℝ) : (ℤ × ℤ × ℤ) × Bool :=
  let lin := dot3 XYZ_TO_SRGB (X / 100, Y / 100, Z / 100)
  let clipped : Bool :=
    if (0 ≤ lin.1 ∧ lin.1 ≤ 1) ∧ (0 ≤ lin.2.1 ∧ lin.2.1 ≤ 1) ∧
        (0 ≤ lin.2.2 ∧ lin.2.2 ≤ 1) then false else true
  ((chan8 lin.1, chan8 lin.2.1, chan8 lin.2.2), clipped)

/-- Embedding of `xyz100_to_hsv_deg`: route through `xyz100_to_rgb255`, then
`rgb255_to_hsv_deg`; the flag propagates from the RGB step. -/
noncomputable def xyz100_to_hsv_deg (X Y Z : ℝ) : (ℝ × ℝ × ℝ) × Bool :=
  let p := xyz100_to_rgb255 X Y Z
  (rgb255_to_hsv_deg (p.1.1 : ℝ) (p.1.2.1 : ℝ) (p.1.2.2 : ℝ), p.2)

/-- Embedding of `hsv_deg_to_xyz100`: route through `hsv_deg_to_rgb255`,
then `rgb255_to_xyz100`. -/
noncomputable def hsv_deg_to_xyz100 (h s v : ℝ) : ℝ × ℝ × ℝ :=
  let p := hsv_deg_to_rgb255 h s v
  rgb255_to_xyz100 (p.1 : ℝ) (p.2.1 : ℝ) (p.2.2 : ℝ)

/- ### Facts about the transfer functions -/

lemma rpow_frac_pow_eq {a : ℝ} (ha : 0 ≤ a) (p q : ℕ) (hq : q ≠ 0) :
    (a ^ ((p : ℝ) / q)) ^ (q : ℕ) = a ^ (p : ℕ) := by
  rw [← Real.rpow_natCast (a ^ ((p : ℝ) / q)) q, ← Real.rpow_mul ha,
    div_mul_cancel₀ _ (by exact_mod_cast hq : ((q : ℝ) ≠ 0)),
    Real.rpow_natCast]

lemma rpow_div_le_of_pow_le {a c : ℝ} {p q : ℕ} (hq : q ≠ 0) (ha : 0 ≤ a)
    (hc : 0 ≤ c) (h : a ^ p ≤ c ^ q) : a ^ ((p : ℝ) / q) ≤ c :=
  le_of_pow_le_pow_left hq hc (by rw [rpow_frac_pow_eq ha p q hq]; exact h)

lemma le_rpow_div_of_pow_le {a c : ℝ} {p q : ℕ} (hq : q ≠ 0) (ha : 0 ≤ a)
    (hc : 0 ≤ c) (h : c ^ q ≤ a ^ p) : c ≤ a ^ ((p : ℝ) / q) :=
  le_of_pow_le_pow_left hq (Real.rpow_nonneg ha _)
    (by rw [rpow_frac_pow_eq ha p q hq]; exact h)

lemma lt_rpow_div_of_pow_lt {a c : ℝ} {p q : ℕ} (hq : q ≠ 0) (ha : 0 ≤ a)
    (h : c ^ q < a ^ p) : c < a ^ ((p : ℝ) / q) :=
  lt_of_pow_lt_pow_left q (Real.rpow_nonneg ha _)
    (by rw [rpow_frac_pow_eq ha p q hq]; exact h)

lemma rpow_s_sub_le {x y : ℝ} (h0 : 0 ≤ y) (hxy : y ≤ x) :
    x ^ ((1 : ℝ) / 2.4) - y ^ ((1 : ℝ) / 2.4) ≤ (x - y) ^ ((1 : ℝ) / 2.4) := by
  have hx0 : 0 ≤ x := le_trans h0 hxy
  have hd0 : 0 ≤ x - y := by linarith
  have h := NNReal.rpow_add_le_add_rpow (Real.toNNReal (x - y)) (Real.toNNReal y)
    (by norm_num : (0 : ℝ) ≤ 1 / 2.4) (by norm_num : (1 : ℝ) / 2.4 ≤ 1)
  have hsum : Real.toNNReal (x - y) + Real.toNNReal y = Real.toNNReal x := by
    rw [← Real.toNNReal_add hd0 h0, show x - y + y = x from by ring]
  rw [hsum] at h
  have hc := NNReal.coe_le_coe.mpr h
  push_cast at hc
  rw [Real.coe_toNNReal x hx0, Real.coe_toNNReal _ hd0, Real.coe_toNNReal y h0] at hc
  linarith

lemma srgb_to_linear_mem {x : ℝ} (h0 : 0 ≤ x) (h1 : x ≤ 1) :
    0 ≤ srgb_to_linear x ∧ srgb_to_linear x ≤ 1 := by
  unfold srgb_to_linear
  split_ifs with h
  · refine ⟨by positivity, ?_⟩
    rw [div_le_one (by norm_num)]
    linarith
  · push_neg at h
    have ha0 : (0 : ℝ) ≤ (x + 0.055) / 1.055 := by positivity
    have ha1 : (x + 0.055) / 1.055 ≤ 1 := by
      rw [div_le_one (by norm_num)]
      linarith
    exact ⟨Real.rpow_nonneg ha0 _, Real.rpow_le_one ha0 ha1 (by norm_num)⟩

lemma T_rpow_lo : (0.0904738 : ℝ) ≤ (0.0031308 : ℝ) ^ ((1 : ℝ) / 2.4) := by
  rw [show (1 : ℝ) / 2.4 = ((5 : ℕ) : ℝ) / ((12 : ℕ) : ℝ) from by norm_num]
  exact le_rpow_div_of_pow_le (by norm_num) (by norm_num) (by norm_num) (by norm_num)

lemma T_rpow_hi : (0.0031308 : ℝ) ^ ((1 : ℝ) / 2.4) ≤ 0.0904739 := by
  rw [show (1 : ℝ) / 2.4 = ((5 : ℕ) : ℝ) / ((12 : ℕ) : ℝ) from by norm_num]
  exact rpow_div_le_of_pow_le (by norm_num) (by norm_num) (by norm_num) (by norm_num)

lemma eps_rpow_le : ((3 : ℝ) / 10 ^ 7) ^ ((1 : ℝ) / 2.4) ≤ 0.002 := by
  rw [show (1 : ℝ) / 2.4 = ((5 : ℕ) : ℝ) / ((12 : ℕ) : ℝ) from by norm_num]
  exact rpow_div_le_of_pow_le (by norm_num) (by norm_num) (by norm_num) (by norm_num)

lemma gamma_right_inverse (c : ℤ) (h0 : 0 ≤ c) (h1 : c ≤ 255) :
    linear_to_srgb (srgb_to_linear ((c : ℝ) / 255)) = (c : ℝ) / 255 := by
  have hc0 : (0 : ℝ) ≤ (c : ℝ) := by exact_mod_cast h0
  have hc1 : (c : ℝ) ≤ 255 := by exact_mod_cast h1
  by_cases hc : c ≤ 10
  · have hc10 : (c : ℝ) ≤ 10 := by exact_mod_cast hc
    have hx : (c : ℝ) / 255 ≤ 0.04045 := by
      rw [div_le_iff (by norm_num)]
      linarith
    have hq : (c : ℝ) / 255 / 12.92 ≤ 0.0031308 := by
      rw [div_le_iff (by norm_num : (0 : ℝ) < 12.92),
        div_le_iff (by norm_num : (0 : ℝ) < 255)]
      linarith
    unfold srgb_to_linear linear_to_srgb
    rw [if_pos hx, if_pos hq]
    ring
  · push_neg at hc
    have hc11 : (11 : ℝ) ≤ (c : ℝ) := by
      have h2 : (11 : ℤ) ≤ c := by omega
      exact_mod_cast h2
    have hx : ¬((c : ℝ) / 255 ≤ 0.04045) := by
      push_neg
      rw [lt_div_iff (by norm_num)]
      linarith
    unfold srgb_to_linear
    rw [if_neg hx]
    have hA0 : (0 : ℝ) < ((c : ℝ) / 255 + 0.055) / 1.055 :=
      div_pos (by linarith) (by norm_num)
    have hA1 : ((c : ℝ) / 255 + 0.055) / 1.055 ≤ 1 := by
      rw [div_le_one (by norm_num)]
      linarith
    have hAlo : ((11 : ℝ) / 255 + 0.055) / 1.055 ≤ ((c : ℝ) / 255 + 0.055) / 1.055 := by
      have h2 : (11 : ℝ) / 255 + 0.055 ≤ (c : ℝ) / 255 + 0.055 := by linarith
      exact (div_le_div_right (by norm_num)).mpr h2
    have hpow_gt : (0.0031308 : ℝ) < (((c : ℝ) / 255 + 0.055) / 1.055) ^ (2.4 : ℝ) := by
      rw [show (2.4 : ℝ) = ((12 : ℕ) : ℝ) / ((5 : ℕ) : ℝ) from by norm_num]
      apply lt_rpow_div_of_pow_lt (by norm_num) hA0.le
      calc (0.0031308 : ℝ) ^ (5 : ℕ) <
          (((11 : ℝ) / 255 + 0.055) / 1.055) ^ (12 : ℕ) := by norm_num
        _ ≤ (((c : ℝ) / 255 + 0.055) / 1.055) ^ (12 : ℕ) :=
            pow_le_pow_left (by norm_num) hAlo 12
    unfold linear_to_srgb
    rw [if_neg (not_le.mpr hpow_gt)]
    rw [← Real.rpow_mul hA0.le,
      show (2.4 : ℝ) * ((1 : ℝ) / 2.4) = 1 from by norm_num, Real.rpow_one]
    field_simp
    ring

lemma linear_to_srgb_mem {x : ℝ} (h0 : 0 ≤ x) (h1 : x ≤ 1) :
    0 ≤ linear_to_srgb x ∧ linear_to_srgb x ≤ 1 := by
  unfold linear_to_srgb
  split_ifs with h
  · exact ⟨by positivity, by linarith⟩
  · push_neg at h
    have hs1 : x ^ ((1 : ℝ) / 2.4) ≤ 1 :=
      Real.rpow_le_one (by linarith) h1 (by norm_num)
    have hslo : (0.0904738 : ℝ) ≤ x ^ ((1 : ℝ) / 2.4) :=
      le_trans T_rpow_lo (Real.rpow_le_rpow (by norm_num) h.le (by norm_num))
    exact ⟨by linarith, by linarith⟩

lemma linear_to_srgb_close {l u : ℝ} (h0l : 0 ≤ l) (h1u : u ≤ 1)
    (hlu : l ≤ u) (hd : u - l ≤ 3 / 10 ^ 7) :
    -(22 / 10 ^ 4 : ℝ) ≤ linear_to_srgb u - linear_to_srgb l ∧
      linear_to_srgb u - linear_to_srgb l ≤ 22 / 10 ^ 4 := by
  unfold linear_to_srgb
  split_ifs with hu hl hl
  · constructor <;> linarith
  · exact absurd (le_trans hlu hu) hl
  · -- the two inputs straddle the knee
    push_neg at hu
    have hmono : (0.0031308 : ℝ) ^ ((1 : ℝ) / 2.4) ≤ u ^ ((1 : ℝ) / 2.4) :=
      Real.rpow_le_rpow (by norm_num) hu.le (by norm_num)
    have hsub := rpow_s_sub_le (by norm_num : (0 : ℝ) ≤ 0.0031308) hu.le
    have hstep : (u - 0.0031308) ^ ((1 : ℝ) / 2.4) ≤
        ((3 : ℝ) / 10 ^ 7) ^ ((1 : ℝ) / 2.4) :=
      Real.rpow_le_rpow (by linarith) (by linarith) (by norm_num)
    constructor
    · linarith [T_rpow_lo, hmono, hl]
    · linarith [T_rpow_hi, hsub, hstep, eps_rpow_le]
  · -- both above the knee
    push_neg at hu hl
    have hmono2 : l ^ ((1 : ℝ) / 2.4) ≤ u ^ ((1 : ℝ) / 2.4) :=
      Real.rpow_le_rpow (by linarith) hlu (by norm_num)
    have hsub := rpow_s_sub_le (by linarith : (0 : ℝ) ≤ l) hlu
    have hstep : (u - l) ^ ((1 : ℝ) / 2.4) ≤ ((3 : ℝ) / 10 ^ 7) ^ ((1 : ℝ) / 2.4) :=
      Real.rpow_le_rpow (by linarith) hd (by norm_num)
    constructor
    · linarith
    · linarith [eps_rpow_le]

lemma linear_to_srgb_abs_close {l u : ℝ} (h0l : 0 ≤ l) (h1l : l ≤ 1)
    (h0u : 0 ≤ u) (h1u : u ≤ 1) (hd : |u - l| ≤ 3 / 10 ^ 7) :
    |linear_to_srgb u - linear_to_srgb l| ≤ 22 / 10 ^ 4 := by
  rw [abs_le] at hd
  rcases le_total l u with h | h
  · have h2 := linear_to_srgb_close h0l h1u h (by linarith)
    rw [abs_le]
    constructor <;> linarith [h2.1, h2.2]
  · have h2 := linear_to_srgb_close h0u h1l h (by linarith)
    rw [abs_le]
    constructor <;> linarith [h2.1, h2.2]

lemma mul_unit_bounds {c x lo hi : ℝ} (h0 : 0 ≤ x) (h1 : x ≤ 1)
    (hlo : lo ≤ c) (hlo0 : lo ≤ 0) (hhi : c ≤ hi) (hhi0 : 0 ≤ hi) :
    lo ≤ c * x ∧ c * x ≤ hi := by
  obtain ⟨ha, hb⟩ := const_mul_unit_mem (c := c) h0 h1
  constructor
  · calc lo ≤ min c 0 := le_min hlo hlo0
      _ ≤ c * x := ha
  · calc c * x ≤ max c 0 := hb
      _ ≤ hi := max_le hhi hhi0

lemma mat_err_row1 (L1 L2 L3 : ℝ) (h10 : 0 ≤ L1) (h11 : L1 ≤ 1)
    (h20 : 0 ≤ L2) (h21 : L2 ≤ 1) (h30 : 0 ≤ L3) (h31 : L3 ≤ 1) :
    |3.2404542 * ((0.4124564 * L1 + 0.3575761 * L2 + 0.1804375 * L3) * 100 / 100) +
      -1.5371385 * ((0.2126729 * L1 + 0.7151522 * L2 + 0.0721750 * L3) * 100 / 100) +
      -0.4985314 * ((0.0193339 * L1 + 0.1191920 * L2 + 0.9503041 * L3) * 100 / 100) -
      L1| ≤ 3 / 10 ^ 7 := by
  have e1 : (-(2 : ℝ) / 10 ^ 7) ≤
      (3.2404542 * 0.4124564 - 1.5371385 * 0.2126729 - 0.4985314 * 0.0193339 - 1) * L1 ∧
      (3.2404542 * 0.4124564 - 1.5371385 * 0.2126729 - 0.4985314 * 0.0193339 - 1) * L1 ≤ 0 :=
    mul_unit_bounds h10 h11 (by norm_num) (by norm_num) (by norm_num) (by norm_num)
  have e2 : (0 : ℝ) ≤
      (3.2404542 * 0.3575761 - 1.5371385 * 0.7151522 - 0.4985314 * 0.1191920) * L2 ∧
      (3.2404542 * 0.3575761 - 1.5371385 * 0.7151522 - 0.4985314 * 0.1191920) * L2 ≤
        5 / 10 ^ 8 :=
    mul_unit_bounds h20 h21 (by norm_num) (by norm_num) (by norm_num) (by norm_num)
  have e3 : (0 : ℝ) ≤
      (3.2404542 * 0.1804375 - 1.5371385 * 0.0721750 - 0.4985314 * 0.9503041) * L3 ∧
      (3.2404542 * 0.1804375 - 1.5371385 * 0.0721750 - 0.4985314 * 0.9503041) * L3 ≤
        6 / 10 ^ 8 :=
    mul_unit_bounds h30 h31 (by norm_num) (by norm_num) (by norm_num) (by norm_num)
  rw [show 3.2404542 * ((0.4124564 * L1 + 0.3575761 * L2 + 0.1804375 * L3) * 100 / 100) +
      -1.5371385 * ((0.2126729 * L1 + 0.7151522 * L2 + 0.0721750 * L3) * 100 / 100) +
      -0.4985314 * ((0.0193339 * L1 + 0.1191920 * L2 + 0.9503041 * L3) * 100 / 100) - L1 =
      (3.2404542 * 0.4124564 - 1.5371385 * 0.2126729 - 0.4985314 * 0.0193339 - 1) * L1 +
      (3.2404542 * 0.3575761 - 1.5371385 * 0.7151522 - 0.4985314 * 0.1191920) * L2 +
      (3.2404542 * 0.1804375 - 1.5371385 * 0.0721750 - 0.4985314 * 0.9503041) * L3
      from by ring, abs_le]
  constructor <;> linarith [e1.1, e1.2, e2.1, e2.2, e3.1, e3.2]

lemma mat_err_row2 (L1 L2 L3 : ℝ) (h10 : 0 ≤ L1) (h11 : L1 ≤ 1)
    (h20 : 0 ≤ L2) (h21 : L2 ≤ 1) (h30 : 0 ≤ L3) (h31 : L3 ≤ 1) :
    |-0.9692660 * ((0.4124564 * L1 + 0.3575761 * L2 + 0.1804375 * L3) * 100 / 100) +
      1.8760108 * ((0.2126729 * L1 + 0.7151522 * L2 + 0.0721750 * L3) * 100 / 100) +
      0.0415560 * ((0.0193339 * L1 + 0.1191920 * L2 + 0.9503041 * L3) * 100 / 100) -
      L2| ≤ 3 / 10 ^ 7 := by
  have e1 : (0 : ℝ) ≤
      (-0.9692660 * 0.4124564 + 1.8760108 * 0.2126729 + 0.0415560 * 0.0193339) * L1 ∧
      (-0.9692660 * 0.4124564 + 1.8760108 * 0.2126729 + 0.0415560 * 0.0193339) * L1 ≤
        14 / 10 ^ 8 :=
    mul_unit_bounds h10 h11 (by norm_num) (by norm_num) (by norm_num) (by norm_num)
  have e2 : (0 : ℝ) ≤
      (-0.9692660 * 0.3575761 + 1.8760108 * 0.7151522 + 0.0415560 * 0.1191920 - 1) * L2 ∧
      (-0.9692660 * 0.3575761 + 1.8760108 * 0.7151522 + 0.0415560 * 0.1191920 - 1) * L2 ≤
        4 / 10 ^ 8 :=
    mul_unit_bounds h20 h21 (by norm_num) (by norm_num) (by norm_num) (by norm_num)
  have e3 : (-(2 : ℝ) / 10 ^ 8) ≤
      (-0.9692660 * 0.1804375 + 1.8760108 * 0.0721750 + 0.0415560 * 0.9503041) * L3 ∧
      (-0.9692660 * 0.1804375 + 1.8760108 * 0.0721750 + 0.0415560 * 0.9503041) * L3 ≤ 0 :=
    mul_unit_bounds h30 h31 (by norm_num) (by norm_num) (by norm_num) (by norm_num)
  rw [show -0.9692660 * ((0.4124564 * L1 + 0.3575761 * L2 + 0.1804375 * L3) * 100 / 100) +
      1.8760108 * ((0.2126729 * L1 + 0.7151522 * L2 + 0.0721750 * L3) * 100 / 100) +
      0.0415560 * ((0.0193339 * L1 + 0.1191920 * L2 + 0.9503041 * L3) * 100 / 100) - L2 =
      (-0.9692660 * 0.4124564 + 1.8760108 * 0.2126729 + 0.0415560 * 0.0193339) * L1 +
      (-0.9692660 * 0.3575761 + 1.8760108 * 0.7151522 + 0.0415560 * 0.1191920 - 1) * L2 +
      (-0.9692660 * 0.1804375 + 1.8760108 * 0.0721750 + 0.0415560 * 0.9503041) * L3
      from by ring, abs_le]
  constructor <;> linarith [e1.1, e1.2, e2.1, e2.2, e3.1, e3.2]

lemma mat_err_row3 (L1 L2 L3 : ℝ) (h10 : 0 ≤ L1) (h11 : L1 ≤ 1)
    (h20 : 0 ≤ L2) (h21 : L2 ≤ 1) (h30 : 0 ≤ L3) (h31 : L3 ≤ 1) :
    |0.0556434 * ((0.4124564 * L1 + 0.3575761 * L2 + 0.1804375 * L3) * 100 / 100) +
      -0.2040259 * ((0.2126729 * L1 + 0.7151522 * L2 + 0.0721750 * L3) * 100 / 100) +
      1.0572252 * ((0.0193339 * L1 + 0.1191920 * L2 + 0.9503041 * L3) * 100 / 100) -
      L3| ≤ 3 / 10 ^ 7 := by
  have e1 : (-(2 : ℝ) / 10 ^ 8) ≤
      (0.0556434 * 0.4124564 - 0.2040259 * 0.2126729 + 1.0572252 * 0.0193339) * L1 ∧
      (0.0556434 * 0.4124564 - 0.2040259 * 0.2126729 + 1.0572252 * 0.0193339) * L1 ≤ 0 :=
    mul_unit_bounds h10 h11 (by norm_num) (by norm_num) (by norm_num) (by norm_num)
  have e2 : (-(4 : ℝ) / 10 ^ 8) ≤
      (0.0556434 * 0.3575761 - 0.2040259 * 0.7151522 + 1.0572252 * 0.1191920) * L2 ∧
      (0.0556434 * 0.3575761 - 0.2040259 * 0.7151522 + 1.0572252 * 0.1191920) * L2 ≤ 0 :=
    mul_unit_bounds h20 h21 (by norm_num) (by norm_num) (by norm_num) (by norm_num)
  have e3 : (0 : ℝ) ≤
      (0.0556434 * 0.1804375 - 0.2040259 * 0.0721750 + 1.0572252 * 0.9503041 - 1) * L3 ∧
      (0.0556434 * 0.1804375 - 0.2040259 * 0.0721750 + 1.0572252 * 0.9503041 - 1) * L3 ≤
        3 / 10 ^ 8 :=
    mul_unit_bounds h30 h31 (by norm_num) (by norm_num) (by norm_num) (by norm_num)
  rw [show 0.0556434 * ((0.4124564 * L1 + 0.3575761 * L2 + 0.1804375 * L3) * 100 / 100) +
      -0.2040259 * ((0.2126729 * L1 + 0.7151522 * L2 + 0.0721750 * L3) * 100 / 100) +
      1.0572252 * ((0.0193339 * L1 + 0.1191920 * L2 + 0.9503041 * L3) * 100 / 100) - L3 =
      (0.0556434 * 0.4124564 - 0.2040259 * 0.2126729 + 1.0572252 * 0.0193339) * L1 +
      (0.0556434 * 0.3575761 - 0.2040259 * 0.7151522 + 1.0572252 * 0.1191920) * L2 +
      (0.0556434 * 0.1804375 - 0.2040259 * 0.0721750 + 1.0572252 * 0.9503041 - 1) * L3
      from by ring, abs_le]
  constructor <;> linarith [e1.1, e1.2, e2.1, e2.2, e3.1, e3.2]

lemma int_guard_abs_le {n c : ℤ} (h0c : 0 ≤ c) (h1c : c ≤ 255)
    (h : |n - c| ≤ 1) : |max 0 (min 255 n) - c| ≤ 1 := by
  rw [abs_le] at h ⊢
  rcases le_total n 255 with h2 | h2
  · rw [min_eq_right h2]
    rcases le_total 0 n with h3 | h3
    · rw [max_eq_right h3]
      exact h
    · rw [max_eq_left h3]
      omega
  · rw [min_eq_left h2, max_eq_right (by norm_num : (0 : ℤ) ≤ 255)]
    omega

lemma chan8_close (c : ℤ) (u : ℝ) (h0c : 0 ≤ c) (h1c : c ≤ 255)
    (hu : |u - srgb_to_linear ((c : ℝ) / 255)| ≤ 3 / 10 ^ 7) :
    |chan8 u - c| ≤ 1 := by
  have hx0 : (0 : ℝ) ≤ (c : ℝ) / 255 := by positivity
  have hx1 : (c : ℝ) / 255 ≤ 1 := by
    rw [div_le_one (by norm_num)]
    exact_mod_cast h1c
  obtain ⟨hl0, hl1⟩ := srgb_to_linear_mem hx0 hx1
  have hcd : |clamp u 0 1 - srgb_to_linear ((c : ℝ) / 255)| ≤ 3 / 10 ^ 7 :=
    le_trans (clamp_dist_le hl0 hl1) hu
  obtain ⟨hu0, hu1⟩ := clamp_mem (x := u) (by norm_num : (0 : ℝ) ≤ 1)
  have hγ := linear_to_srgb_abs_close hl0 hl1 hu0 hu1 hcd
  rw [gamma_right_inverse c h0c h1c] at hγ
  obtain ⟨hg0, hg1⟩ := linear_to_srgb_mem hu0 hu1
  unfold chan8
  rw [clamp_eq_self hg0 hg1]
  have hbd : |linear_to_srgb (clamp u 0 1) * 255 - (c : ℝ)| < 3 / 2 := by
    rw [show linear_to_srgb (clamp u 0 1) * 255 - (c : ℝ) =
        255 * (linear_to_srgb (clamp u 0 1) - (c : ℝ) / 255) from by ring,
      abs_mul, abs_of_pos (by norm_num : (0 : ℝ) < 255)]
    calc (255 : ℝ) * |linear_to_srgb (clamp u 0 1) - (c : ℝ) / 255| ≤
        255 * (22 / 10 ^ 4) := mul_le_mul_of_nonneg_left hγ (by norm_num)
      _ < 3 / 2 := by norm_num
  exact int_guard_abs_le h0c h1c (pyround_abs_le hbd)

/-- C1 (amended, XYZ round-trip): for every RGB triple with integer channels
in `[0,255]`, converting to XYZ and back yields channels within 1 of the
input.  (The out-of-gamut flag is not always `false` on this path — see the
counterexample theorem.) -/
theorem C1_xyz_roundtrip_within_one (r g b : ℤ) (h0r : 0 ≤ r) (h1r : r ≤ 255)
    (h0g : 0 ≤ g) (h1g : g ≤ 255) (h0b : 0 ≤ b) (h1b : b ≤ 255) :
    |(xyz100_to_rgb255 (rgb255_to_xyz100 (r : ℝ) (g : ℝ) (b : ℝ)).1
        (rgb255_to_xyz100 (r : ℝ) (g : ℝ) (b : ℝ)).2.1
        (rgb255_to_xyz100 (r : ℝ) (g : ℝ) (b : ℝ)).2.2).1.1 - r| ≤ 1 ∧
      |(xyz100_to_rgb255 (rgb255_to_xyz100 (r : ℝ) (g : ℝ) (b : ℝ)).1
        (rgb255_to_xyz100 (r : ℝ) (g : ℝ) (b : ℝ)).2.1
        (rgb255_to_xyz100 (r : ℝ) (g : ℝ) (b : ℝ)).2.2).1.2.1 - g| ≤ 1 ∧
      |(xyz100_to_rgb255 (rgb255_to_xyz100 (r : ℝ) (g : ℝ) (b : ℝ)).1
        (rgb255_to_xyz100 (r : ℝ) (g : ℝ) (b : ℝ)).2.1
        (rgb255_to_xyz100 (r : ℝ) (g : ℝ) (b : ℝ)).2.2).1.2.2 - b| ≤ 1 := by
  have h0r' : (0 : ℝ) ≤ (r : ℝ) := by exact_mod_cast h0r
  have h1r' : (r : ℝ) ≤ 255 := by exact_mod_cast h1r
  have h0g' : (0 : ℝ) ≤ (g : ℝ) := by exact_mod_cast h0g
  have h1g' : (g : ℝ) ≤ 255 := by exact_mod_cast h1g
  have h0b' : (0 : ℝ) ≤ (b : ℝ) := by exact_mod_cast h0b
  have h1b' : (b : ℝ) ≤ 255 := by exact_mod_cast h1b
  have hcr : clamp (r : ℝ) 0 255 = (r : ℝ) := clamp_eq_self h0r' h1r'
  have hcg : clamp (g : ℝ) 0 255 = (g : ℝ) := clamp_eq_self h0g' h1g'
  have hcb : clamp (b : ℝ) 0 255 = (b : ℝ) := clamp_eq_self h0b' h1b'
  obtain ⟨hL10, hL11⟩ := srgb_to_linear_mem (x := (r : ℝ) / 255)
    (by positivity) (by rw [div_le_one (by norm_num)]; linarith)
  obtain ⟨hL20, hL21⟩ := srgb_to_linear_mem (x := (g : ℝ) / 255)
    (by positivity) (by rw [div_le_one (by norm_num)]; linarith)
  obtain ⟨hL30, hL31⟩ := srgb_to_linear_mem (x := (b : ℝ) / 255)
    (by positivity) (by rw [div_le_one (by norm_num)]; linarith)
  have hEqX : rgb255_to_xyz100 (r : ℝ) (g : ℝ) (b : ℝ) =
      ((0.4124564 * srgb_to_linear ((r : ℝ) / 255) +
          0.3575761 * srgb_to_linear ((g : ℝ) / 255) +
          0.1804375 * srgb_to_linear ((b : ℝ) / 255)) * 100,
       (0.2126729 * srgb_to_linear ((r : ℝ) / 255) +
          0.7151522 * srgb_to_linear ((g : ℝ) / 255) +
          0.0721750 * srgb_to_linear ((b : ℝ) / 255)) * 100,
       (0.0193339 * srgb_to_linear ((r : ℝ) / 255) +
          0.1191920 * srgb_to_linear ((g : ℝ) / 255) +
          0.9503041 * srgb_to_linear ((b : ℝ) / 255)) * 100) := by
    simp only [rgb255_to_xyz100, dot3, SRGB_TO_XYZ, hcr, hcg, hcb]
  rw [hEqX]
  simp only [xyz100_to_rgb255, dot3, XYZ_TO_SRGB]
  refine ⟨?_, ?_, ?_⟩
  · exact chan8_close r _ h0r h1r
      (mat_err_row1 _ _ _ hL10 hL11 hL20 hL21 hL30 hL31)
  · exact chan8_close g _ h0g h1g
      (mat_err_row2 _ _ _ hL10 hL11 hL20 hL21 hL30 hL31)
  · exact chan8_close b _ h0b h1b
      (mat_err_row3 _ _ _ hL10 hL11 hL20 hL21 hL30 hL31)

/-- C1 witness: the round-trip bound applied at the concrete triple
`(0, 0, 255)`. -/
theorem C1_xyz_roundtrip_within_one_witness :
    |(xyz100_to_rgb255 (rgb255_to_xyz100 ((0 : ℤ) : ℝ) ((0 : ℤ) : ℝ) ((255 : ℤ) : ℝ)).1
        (rgb255_to_xyz100 ((0 : ℤ) : ℝ) ((0 : ℤ) : ℝ) ((255 : ℤ) : ℝ)).2.1
        (rgb255_to_xyz100 ((0 : ℤ) : ℝ) ((0 : ℤ) : ℝ) ((255 : ℤ) : ℝ)).2.2).1.1 - 0| ≤ 1 ∧
      |(xyz100_to_rgb255 (rgb255_to_xyz100 ((0 : ℤ) : ℝ) ((0 : ℤ) : ℝ) ((255 : ℤ) : ℝ)).1
        (rgb255_to_xyz100 ((0 : ℤ) : ℝ) ((0 : ℤ) : ℝ) ((255 : ℤ) : ℝ)).2.1
        (rgb255_to_xyz100 ((0 : ℤ) : ℝ) ((0 : ℤ) : ℝ) ((255 : ℤ) : ℝ)).2.2).1.2.1 - 0| ≤ 1 ∧
      |(xyz100_to_rgb255 (rgb255_to_xyz100 ((0 : ℤ) : ℝ) ((0 : ℤ) : ℝ) ((255 : ℤ) : ℝ)).1
        (rgb255_to_xyz100 ((0 : ℤ) : ℝ) ((0 : ℤ) : ℝ) ((255 : ℤ) : ℝ)).2.1
        (rgb255_to_xyz100 ((0 : ℤ) : ℝ) ((0 : ℤ) : ℝ) ((255 : ℤ) : ℝ)).2.2).1.2.2 - 255| ≤ 1 :=
  C1_xyz_roundtrip_within_one 0 0 255 (by decide) (by decide) (by decide) (by decide)
    (by decide) (by decide)

/-- C1 counterexample: the round trip of pure blue `(0, 0, 255)` reports the
out-of-gamut flag `true` (the truncated matrix constants send the exact blue
primary slightly outside `[0,1]` in the linear green component), refuting the
claim that the flag is `false` for every valid RGB triple. -/
theorem C1_flag_counterexample :
    (xyz100_to_rgb255 (rgb255_to_xyz100 (0 : ℝ) (0 : ℝ) (255 : ℝ)).1
      (rgb255_to_xyz100 (0 : ℝ) (0 : ℝ) (255 : ℝ)).2.1
      (rgb255_to_xyz100 (0 : ℝ) (0 : ℝ) (255 : ℝ)).2.2).2 = true := by
  have hz : srgb_to_linear ((0 : ℝ) / 255) = 0 := by
    unfold srgb_to_linear
    rw [if_pos (by norm_num)]
    norm_num
  have ho : srgb_to_linear ((255 : ℝ) / 255) = 1 := by
    unfold srgb_to_linear
    rw [if_neg (by norm_num)]
    rw [show ((255 : ℝ) / 255 + 0.055) / 1.055 = 1 from by norm_num, Real.one_rpow]
  have h1 : rgb255_to_xyz100 (0 : ℝ) (0 : ℝ) (255 : ℝ) =
      (18.04375, 7.2175, 95.03041) := by
    simp only [rgb255_to_xyz100, dot3, SRGB_TO_XYZ]
    rw [clamp_eq_self (by norm_num) (by norm_num : (0 : ℝ) ≤ 255),
      clamp_eq_self (by norm_num : (0 : ℝ) ≤ 255) (by norm_num : (255 : ℝ) ≤ 255)]
    rw [hz, ho]
    norm_num [Prod.mk.injEq]
  rw [h1]
  simp only [xyz100_to_rgb255, dot3, XYZ_TO_SRGB]
  rw [if_neg (by
    intro hcontra
    have h2 := hcontra.2.1.1
    norm_num at h2)]

lemma chan8_eq_255 {c : ℝ} (hc : 0.9999 ≤ c) : chan8 c = 255 := by
  have h1 : clamp c 0 1 ≤ 1 := (clamp_mem (by norm_num)).2
  have h2 : (0.9999 : ℝ) ≤ clamp c 0 1 := by
    unfold clamp
    split_ifs with ha hb
    · linarith
    · norm_num
    · exact hc
  unfold chan8 linear_to_srgb
  rw [if_neg (by push_neg; linarith : ¬(clamp c 0 1 ≤ 0.0031308))]
  have hs_up : clamp c 0 1 ^ ((1 : ℝ) / 2.4) ≤ 1 :=
    Real.rpow_le_one (by linarith) h1 (by norm_num)
  have hs_lo : clamp c 0 1 ≤ clamp c 0 1 ^ ((1 : ℝ) / 2.4) := by
    have h3 := Real.rpow_le_rpow_of_exponent_ge
      (by linarith : (0 : ℝ) < clamp c 0 1) h1 (by norm_num : (1 : ℝ) / 2.4 ≤ 1)
    rwa [Real.rpow_one] at h3
  rw [clamp_eq_self (by nlinarith) (by nlinarith)]
  have hpr : pyround ((1.055 * clamp c 0 1 ^ ((1 : ℝ) / 2.4) - 0.055) * 255) = 255 := by
    apply pyround_eq_of
    rw [abs_lt]
    constructor <;> push_cast <;> nlinarith
  rw [hpr]
  norm_num

lemma chan8_eq_zero {c : ℝ} (hc : c ≤ 0) : chan8 c = 0 := by
  have h2 : clamp c 0 1 = 0 := by
    unfold clamp
    split_ifs with ha hb
    · rfl
    · linarith
    · linarith
  unfold chan8
  rw [h2]
  unfold linear_to_srgb
  rw [if_pos (by norm_num : (0 : ℝ) ≤ 0.0031308), mul_zero,
    clamp_eq_self (le_refl 0) (by norm_num), zero_mul,
    show (0 : ℝ) = ((0 : ℤ) : ℝ) from by norm_num, pyround_intCast]
  norm_num

lemma white_point_eval :
    xyz100_to_rgb255 95.047 100 108.883 = ((255, 255, 255), true) := by
  simp only [xyz100_to_rgb255, dot3, XYZ_TO_SRGB]
  rw [chan8_eq_255 (by norm_num), chan8_eq_255 (by norm_num),
    chan8_eq_255 (by norm_num)]
  rw [if_neg (by
    intro hcontra
    have h2 := hcontra.1.2
    norm_num at h2)]

lemma red_axis_flag : (xyz100_to_rgb255 95.047 0 0).2 = true := by
  simp only [xyz100_to_rgb255, dot3, XYZ_TO_SRGB]
  rw [if_neg (by
    intro hcontra
    have h2 := hcontra.1.2
    norm_num at h2)]

/-- C3 counterexample: at the D65 white point the conversion does return
`(255,255,255)`, but the out-of-gamut flag is `true`, not `false`: the exact
linear red component `3.2404542·0.95047 − 1.5371385 − 0.4985314·1.08883`
exceeds 1 by about `5.9·10⁻⁸`. -/
theorem C3_whitepoint_flag_counterexample :
    (xyz100_to_rgb255 95.047 100 108.883).2 = true := by
  rw [white_point_eval]

/-- C3 (amended): `xyz100_to_rgb255 (95.047, 100, 108.883)` yields
`(255,255,255)` with the out-of-gamut flag `true` (not `false`), and
`xyz100_to_rgb255 (95.047, 0, 0)` yields the flag `true`. -/
theorem C3_gamut_boundary :
    xyz100_to_rgb255 95.047 100 108.883 = ((255, 255, 255), true) ∧
      (xyz100_to_rgb255 95.047 0 0).2 = true :=
  ⟨white_point_eval, red_axis_flag⟩

/-- C7 counterexample: `xyz100_to_rgb255` does not clamp its XYZ inputs into
the D65 box first: at `(200, 100, 108.883)` it returns a different value than
at the clamped input `(95.047, 100, 108.883)` (the green channel collapses to
0 instead of 255). -/
theorem C7_xyz_not_clamped_counterexample :
    xyz100_to_rgb255 200 100 108.883 ≠
      xyz100_to_rgb255 (clamp 200 0 95.047) (clamp 100 0 100)
        (clamp 108.883 0 108.883) := by
  have hcl1 : clamp (200 : ℝ) 0 95.047 = 95.047 := by
    unfold clamp
    rw [if_neg (by norm_num), if_pos (by norm_num)]
  have hcl2 : clamp (100 : ℝ) 0 100 = 100 :=
    clamp_eq_self (by norm_num) (by norm_num)
  have hcl3 : clamp (108.883 : ℝ) 0 108.883 = 108.883 :=
    clamp_eq_self (by norm_num) (by norm_num)
  rw [hcl1, hcl2, hcl3, white_point_eval]
  have hg : (xyz100_to_rgb255 200 100 108.883).1.2.1 = 0 := by
    simp only [xyz100_to_rgb255, dot3, XYZ_TO_SRGB]
    exact chan8_eq_zero (by norm_num)
  intro h
  rw [h] at hg
  norm_num at hg

/- ### The synchronization controller (`app.py`)

The Streamlit session state is modelled as an explicit record; one module
rerun (lines 96-141 of `app.py`) is the function `syncPass`, which first
re-clamps the stored XYZ values (lines 96-98) and then recomputes the
non-authoritative views from the `source` tag.  The unused local
`clip_warning` computed by the xyz branch is returned alongside the state.
`r`, `g`, `b` always hold Python ints (`ℤ`); `h`, `s`, `v` are session values
that the code reads with `float(...)`, so they are modelled as `ℝ`. -/

inductive Source
  | rgb
  | hsv
  | xyz

structure AppState where
  r : ℤ
  g : ℤ
  b : ℤ
  h : ℝ
  s : ℝ
  v : ℝ
  X : ℝ
  Y : ℝ
  Z : ℝ
  hex : List Char
  source : Source

/-- Python `round(x, 3)` under exact-real semantics: round half to even at
the third decimal. -/
noncomputable def pyround3 (x : ℝ) : ℝ := (pyround (x * 1000) : ℝ) / 1000

/-- Embedding of `_clamp_round` (`app.py`): `min(max(float(v), lo), hi)`
then `round(_, 3)`. -/
noncomputable def clamp_round (value min_value max_value : ℝ) : ℝ :=
  pyround3 (min (max value min_value) max_value)

/-- One synchronization pass of `app.py`.  The int-typed `r`, `g`, `b` are
passed to `rgb_to_hex` through `Int.toNat`; they are always in `[0,255]`
when produced by the conversion library. -/
noncomputable def syncPass (st : AppState) : AppState × Bool :=
  let st0 : AppState := { st with
    X := clamp_round st.X 0 95.047,
    Y := clamp_round st.Y 0 100,
    Z := clamp_round st.Z 0 108.883 }
  match st0.source with
  | Source.rgb =>
    let hsv := rgb255_to_hsv_deg (st0.r : ℝ) (st0.g : ℝ) (st0.b : ℝ)
    let xyz := rgb255_to_xyz100 (st0.r : ℝ) (st0.g : ℝ) (st0.b : ℝ)
    ({ st0 with
        h := ((pyround hsv.1 : ℤ) : ℝ),
        s := ((pyround hsv.2.1 : ℤ) : ℝ),
        v := ((pyround hsv.2.2 : ℤ) : ℝ),
        X := clamp_round xyz.1 0 95.047,
        Y := clamp_round xyz.2.1 0 100,
        Z := clamp_round xyz.2.2 0 108.883,
        hex := rgb_to_hex st0.r.toNat st0.g.toNat st0.b.toNat }, false)
  | Source.hsv =>
    let rgb := hsv_deg_to_rgb255 st0.h st0.s st0.v
    let xyz := rgb255_to_xyz100 (rgb.1 : ℝ) (rgb.2.1 : ℝ) (rgb.2.2 : ℝ)
    ({ st0 with
        r := rgb.1,
        g := rgb.2.1,
        b := rgb.2.2,
        X := clamp_round xyz.1 0 95.047,
        Y := clamp_round xyz.2.1 0 100,
        Z := clamp_round xyz.2.2 0 108.883,
        hex := rgb_to_hex rgb.1.toNat rgb.2.1.toNat rgb.2.2.toNat }, false)
  | Source.xyz =>
    let p := xyz100_to_rgb255 st0.X st0.Y st0.Z
    let q := xyz100_to_hsv_deg st0.X st0.Y st0.Z
    ({ st0 with
        r := p.1.1,
        g := p.1.2.1,
        b := p.1.2.2,
        h := ((pyround q.1.1 : ℤ) : ℝ),
        s := ((pyround q.1.2.1 : ℤ) : ℝ),
        v := ((pyround q.1.2.2 : ℤ) : ℝ),
        hex := rgb_to_hex p.1.1.toNat p.1.2.1.toNat p.1.2.2.toNat }, p.2 || q.2)

/-- Embedding of `applyEdit(RGB, ...)`: the widget callbacks overwrite the
edited channels and the source tag, then the module reruns (`syncPass`). -/
noncomputable def applyEditRGB (st : AppState) (r g b : ℤ) : AppState × Bool :=
  syncPass { st with r := r, g := g, b := b, source := Source.rgb }

lemma clamp_round_idem {x lo hi : ℝ} (hlohi : lo ≤ hi) (nlo nhi : ℤ)
    (hl : (nlo : ℝ) = lo * 1000) (hh : (nhi : ℝ) = hi * 1000) :
    clamp_round (clamp_round x lo hi) lo hi = clamp_round x lo hi := by
  unfold clamp_round pyround3
  obtain ⟨w, hw⟩ : ∃ w, min (max x lo) hi = w := ⟨_, rfl⟩
  rw [hw]
  have hwlo : lo ≤ w := by
    rw [← hw]
    exact le_min (le_max_right _ _) hlohi
  have hwhi : w ≤ hi := by
    rw [← hw]
    exact min_le_right _ _
  have habs := abs_pyround_sub (w * 1000)
  rw [abs_le] at habs
  have hmul_lo : lo * 1000 ≤ w * 1000 := by linarith
  have hmul_hi : w * 1000 ≤ hi * 1000 := by linarith
  have hn_lo : nlo ≤ pyround (w * 1000) := by
    by_contra hcon
    push_neg at hcon
    have h4 : pyround (w * 1000) ≤ nlo - 1 := by omega
    have h5 : (pyround (w * 1000) : ℝ) ≤ (nlo : ℝ) - 1 := by exact_mod_cast h4
    rw [hl] at h5
    linarith
  have hn_hi : pyround (w * 1000) ≤ nhi := by
    by_contra hcon
    push_neg at hcon
    have h4 : nhi + 1 ≤ pyround (w * 1000) := by omega
    have h5 : (nhi : ℝ) + 1 ≤ (pyround (w * 1000) : ℝ) := by exact_mod_cast h4
    rw [hh] at h5
    linarith
  have hylo : lo ≤ (pyround (w * 1000) : ℝ) / 1000 := by
    rw [le_div_iff (by norm_num : (0 : ℝ) < 1000)]
    rw [← hl]
    exact_mod_cast hn_lo
  have hyhi : (pyround (w * 1000) : ℝ) / 1000 ≤ hi := by
    rw [div_le_iff (by norm_num : (0 : ℝ) < 1000)]
    rw [← hh]
    exact_mod_cast hn_hi
  rw [max_eq_left hylo, min_eq_left hyhi]
  rw [show (pyround (w * 1000) : ℝ) / 1000 * 1000 = ((pyround (w * 1000) : ℤ) : ℝ)
      from by push_cast; ring]
  rw [pyround_intCast]

/-- C7 (amended): the RGB- and HSV-consuming conversion functions clamp
their own inputs before use, but `xyz100_to_rgb255` does not clamp its XYZ
inputs (see the counterexample theorem); the clamping of XYZ into the D65
box is performed by the synchronization controller before the conversion,
so a synchronization pass is unchanged if the stored XYZ values are clamped
and rounded first. -/
theorem C7_clamping_discipline :
    (∀ r g b : ℝ, rgb255_to_xyz100 r g b =
        rgb255_to_xyz100 (clamp r 0 255) (clamp g 0 255) (clamp b 0 255)) ∧
    (∀ r g b : ℝ, rgb255_to_hsv_deg r g b =
        rgb255_to_hsv_deg (clamp r 0 255) (clamp g 0 255) (clamp b 0 255)) ∧
    ∀ st : AppState, syncPass st =
      syncPass { st with
        X := clamp_round st.X 0 95.047,
        Y := clamp_round st.Y 0 100,
        Z := clamp_round st.Z 0 108.883 } := by
  refine ⟨?_, ?_, ?_⟩
  · intro r g b
    simp only [rgb255_to_xyz100]
    rw [clamp_idem r 0 255 (by norm_num), clamp_idem g 0 255 (by norm_num),
      clamp_idem b 0 255 (by norm_num)]
  · intro r g b
    simp only [rgb255_to_hsv_deg]
    rw [clamp_idem r 0 255 (by norm_num), clamp_idem g 0 255 (by norm_num),
      clamp_idem b 0 255 (by norm_num)]
  · intro st
    simp only [syncPass]
    rw [clamp_round_idem (by norm_num) 0 95047 (by norm_num) (by norm_num),
      clamp_round_idem (by norm_num) 0 100000 (by norm_num) (by norm_num),
      clamp_round_idem (by norm_num) 0 108883 (by norm_num) (by norm_num)]

/-- C8: the XYZ-to-HSV path is the RGB-derived path: `xyz100_to_hsv_deg`
returns exactly `rgb255_to_hsv_deg` of the triple produced by
`xyz100_to_rgb255` together with that conversion's flag; consequently, after
an XYZ-sourced synchronization pass the stored `h`, `s`, `v` are the rounds
of `rgb255_to_hsv_deg` applied to the stored RGB triple, and the returned
warning flag holds iff the RGB conversion reported out-of-gamut. -/
theorem C8_xyz_branch_consistency :
    (∀ X Y Z : ℝ,
      xyz100_to_hsv_deg X Y Z =
        (rgb255_to_hsv_deg ((xyz100_to_rgb255 X Y Z).1.1 : ℝ)
          ((xyz100_to_rgb255 X Y Z).1.2.1 : ℝ)
          ((xyz100_to_rgb255 X Y Z).1.2.2 : ℝ),
         (xyz100_to_rgb255 X Y Z).2)) ∧
    ∀ st : AppState,
      (syncPass { st with source := Source.xyz }).1.h =
        ((pyround (rgb255_to_hsv_deg
          ((syncPass { st with source := Source.xyz }).1.r : ℝ)
          ((syncPass { st with source := Source.xyz }).1.g : ℝ)
          ((syncPass { st with source := Source.xyz }).1.b : ℝ)).1 : ℤ) : ℝ) ∧
      (syncPass { st with source := Source.xyz }).1.s =
        ((pyround (rgb255_to_hsv_deg
          ((syncPass { st with source := Source.xyz }).1.r : ℝ)
          ((syncPass { st with source := Source.xyz }).1.g : ℝ)
          ((syncPass { st with source := Source.xyz }).1.b : ℝ)).2.1 : ℤ) : ℝ) ∧
      (syncPass { st with source := Source.xyz }).1.v =
        ((pyround (rgb255_to_hsv_deg
          ((syncPass { st with source := Source.xyz }).1.r : ℝ)
          ((syncPass { st with source := Source.xyz }).1.g : ℝ)
          ((syncPass { st with source := Source.xyz }).1.b : ℝ)).2.2 : ℤ) : ℝ) ∧
      (syncPass { st with source := Source.xyz }).2 =
        (xyz100_to_rgb255 (clamp_round st.X 0 95.047) (clamp_round st.Y 0 100)
          (clamp_round st.Z 0 108.883)).2 := by
  refine ⟨fun X Y Z => rfl, fun st => ⟨rfl, rfl, rfl, ?_⟩⟩
  simp only [syncPass, xyz100_to_hsv_deg]
  exact Bool.or_self _

/-- C9: after an RGB edit, the stored `r`, `g`, `b` equal the edited values
exactly — the RGB branch of the synchronization pass never re-derives the
edited view. -/
theorem C9_rgb_edit_passthrough (st : AppState) (r g b : ℤ)
    (h0r : 0 ≤ r) (h1r : r ≤ 255) (h0g : 0 ≤ g) (h1g : g ≤ 255)
    (h0b : 0 ≤ b) (h1b : b ≤ 255) :
    (applyEditRGB st r g b).1.r = r ∧ (applyEditRGB st r g b).1.g = g ∧
      (applyEditRGB st r g b).1.b = b :=
  ⟨rfl, rfl, rfl⟩

/-- Sample state used by the C9 witness. -/
noncomputable def sampleState9 : AppState :=
  { r := 0, g := 0, b := 0, h := 0, s := 0, v := 0, X := 0, Y := 0, Z := 0,
    hex := [], source := Source.rgb }

/-- C9 witness: the pass-through theorem applied to a concrete state and the
concrete edit `(12, 200, 255)`. -/
theorem C9_rgb_edit_passthrough_witness :
    (applyEditRGB sampleState9 12 200 255).1.r = 12 ∧
      (applyEditRGB sampleState9 12 200 255).1.g = 200 ∧
      (applyEditRGB sampleState9 12 200 255).1.b = 255 :=
  C9_rgb_edit_passthrough sampleState9 12 200 255 (by decide) (by decide)
    (by decide) (by decide) (by decide) (by decide)

/-- C10: after any synchronization pass the stored X, Y, Z are fixed points
of clamp-to-the-D65-box-and-round-to-3-decimals, and the stored h, s, v are
integer-valued (the code stores `int(round(_))`; the hsv branch leaves the
already-integer slider values untouched). -/
theorem C10_precision_policy (st : AppState)
    (hih : ∃ n : ℤ, st.h = (n : ℝ)) (his : ∃ n : ℤ, st.s = (n : ℝ))
    (hiv : ∃ n : ℤ, st.v = (n : ℝ)) :
    ((syncPass st).1.X = clamp_round (syncPass st).1.X 0 95.047 ∧
      (syncPass st).1.Y = clamp_round (syncPass st).1.Y 0 100 ∧
      (syncPass st).1.Z = clamp_round (syncPass st).1.Z 0 108.883) ∧
    ((∃ n : ℤ, (syncPass st).1.h = (n : ℝ)) ∧
      (∃ n : ℤ, (syncPass st).1.s = (n : ℝ)) ∧
      (∃ n : ℤ, (syncPass st).1.v = (n : ℝ))) := by
  obtain ⟨r0, g0, b0, h0, s0, v0, X0, Y0, Z0, hex0, src0⟩ := st
  cases src0
  · simp only [syncPass]
    refine ⟨⟨?_, ?_, ?_⟩, ⟨_, rfl⟩, ⟨_, rfl⟩, ⟨_, rfl⟩⟩
    · exact (clamp_round_idem (by norm_num) 0 95047 (by norm_num) (by norm_num)).symm
    · exact (clamp_round_idem (by norm_num) 0 100000 (by norm_num) (by norm_num)).symm
    · exact (clamp_round_idem (by norm_num) 0 108883 (by norm_num) (by norm_num)).symm
  · simp only [syncPass]
    refine ⟨⟨?_, ?_, ?_⟩, hih, his, hiv⟩
    · exact (clamp_round_idem (by norm_num) 0 95047 (by norm_num) (by norm_num)).symm
    · exact (clamp_round_idem (by norm_num) 0 100000 (by norm_num) (by norm_num)).symm
    · exact (clamp_round_idem (by norm_num) 0 108883 (by norm_num) (by norm_num)).symm
  · simp only [syncPass]
    refine ⟨⟨?_, ?_, ?_⟩, ⟨_, rfl⟩, ⟨_, rfl⟩, ⟨_, rfl⟩⟩
    · exact (clamp_round_idem (by norm_num) 0 95047 (by norm_num) (by norm_num)).symm
    · exact (clamp_round_idem (by norm_num) 0 100000 (by norm_num) (by norm_num)).symm
    · exact (clamp_round_idem (by norm_num) 0 108883 (by norm_num) (by norm_num)).symm

/-- Sample state used by the C10 witness. -/
noncomputable def sampleState10 : AppState :=
  { r := 10, g := 20, b := 30, h := 0, s := 0, v := 0, X := 1, Y := 2, Z := 3,
    hex := [], source := Source.hsv }

/-- C10 witness: the precision-policy theorem applied to a concrete state
with integer h, s, v. -/
theorem C10_precision_policy_witness :
    ((syncPass sampleState10).1.X = clamp_round (syncPass sampleState10).1.X 0 95.047 ∧
      (syncPass sampleState10).1.Y = clamp_round (syncPass sampleState10).1.Y 0 100 ∧
      (syncPass sampleState10).1.Z = clamp_round (syncPass sampleState10).1.Z 0 108.883) ∧
    ((∃ n : ℤ, (syncPass sampleState10).1.h = (n : ℝ)) ∧
      (∃ n : ℤ, (syncPass sampleState10).1.s = (n : ℝ)) ∧
      (∃ n : ℤ, (syncPass sampleState10).1.v = (n : ℝ))) :=
  C10_precision_policy sampleState10 ⟨0, by norm_num [sampleState10]⟩
    ⟨0, by norm_num [sampleState10]⟩ ⟨0, by norm_num [sampleState10]⟩
